import Mathlib

/-!
Verification of the ASR-GoT knowledge-graph core (Research-Blueprint).

This file gives a shallow embedding, in Lean 4, of the graph store
(`src/core/graph.ts`), the confidence arithmetic (`src/utils/bayesian.ts`)
and the 8-stage pipeline skeleton (`ASRGoTPipeline`), and proves or refutes
the specification claims about them.

Modelling conventions:
* JavaScript numbers are modelled by exact rationals (`ℚ`).  All the
  arithmetic appearing in the claims (averages, max, linear blends,
  comparisons) is exact, so `ℚ` is the faithful idealisation.
* `Map` objects are modelled by association lists in insertion order
  (`List (String × α)`): `Map.set` updates in place or appends,
  `Map.delete` removes the key, iteration is list order.
* `Date` timestamps are not modelled (no claim depends on wall-clock
  time); revision-history entries keep only their change string, and
  `execution_time_ms` is recorded as `0`.
* `uuidv4()` results are passed in as explicit string parameters; theorems
  that need them fresh state that as a hypothesis (matching the collision
  probability 0 of real uuids).
* JavaScript truthiness: `x || d` on a number yields `d` when `x` is
  absent or `0`; on an object/array it yields `d` only when `x` is absent
  (an empty array is truthy).  Helpers `jsOrNum` / `jsOrDefault` encode
  exactly this.
-/

/-! ### Association-list model of JS `Map` -/

def mapGet {κ α : Type} [DecidableEq κ] (m : List (κ × α)) (k : κ) : Option α :=
  (m.find? (fun p => p.1 = k)).map (·.2)

def mapHas {κ α : Type} [DecidableEq κ] (m : List (κ × α)) (k : κ) : Bool :=
  (mapGet m k).isSome

/-- `Map.set`: replace the value in place if the key is present (a JS `Map`
never holds a duplicate key), append otherwise. -/
def mapSet {κ α : Type} [DecidableEq κ] : List (κ × α) → κ → α → List (κ × α)
  | [], k, v => [(k, v)]
  | p :: rest, k, v =>
    if p.1 = k then (k, v) :: rest else p :: mapSet rest k v

/-- `Map.delete`. -/
def mapDelete {κ α : Type} [DecidableEq κ] (m : List (κ × α)) (k : κ) :
    List (κ × α) :=
  m.filter (fun p => ¬ p.1 = k)

/-- JS `x || d` for an optional number: `0` and `undefined` are falsy. -/
def jsOrNum (x : Option ℚ) (d : ℚ) : ℚ :=
  match x with
  | none => d
  | some v => if v = 0 then d else v

/-- JS `x || d` for an optional object or array (only `undefined` is falsy). -/
def jsOrDefault {α : Type} (x : Option α) (d : α) : α :=
  match x with
  | none => d
  | some v => v

/-! ### Data model (`src/types/index.ts`) -/

inductive NodeType where
  | root | dimension | hypothesis | evidence | placeholder_gap | ibn
deriving Repr, DecidableEq

inductive EdgeType where
  | correlative | supportive | contradictory | prerequisite
  | generalization | specialization | other
  | causal | counterfactual | confounded
  | temporal_precedence | cyclic | delayed | sequential
deriving Repr, DecidableEq

structure ConfidenceVector where
  empirical_support : ℚ
  theoretical_basis : ℚ
  methodological_rigor : ℚ
  consensus_alignment : ℚ
deriving Repr, DecidableEq

structure StatisticalPower where
  power : Option ℚ
  sample_size : Option ℚ
  effect_size : Option ℚ
deriving Repr, DecidableEq

/-- Node metadata as passed to `addNode` (fields that the code defends with
`||` defaults are optional here, since at runtime they may be `undefined`). -/
structure NodeMetadataIn where
  node_id : String
  label : String
  type : NodeType
  provenance : String
  confidence : Option ConfidenceVector
  epistemic_status : String
  disciplinary_tags : Option (List String)
  bias_flags : Option (List String)
  revision_history : Option (List String)
  impact_score : Option ℚ
  layer_id : Option String
  falsification_criteria : Option String
  statistical_power : Option StatisticalPower
deriving Repr, DecidableEq

/-- Node metadata as stored after `addNode` fills the defaults. -/
structure NodeMeta where
  node_id : String
  label : String
  type : NodeType
  provenance : String
  confidence : ConfidenceVector
  epistemic_status : String
  disciplinary_tags : List String
  bias_flags : List String
  revision_history : List String
  impact_score : ℚ
  layer_id : Option String
  falsification_criteria : Option String
  statistical_power : Option StatisticalPower
deriving Repr, DecidableEq

structure GraphNode where
  id : String
  metadata : NodeMeta
deriving Repr, DecidableEq

structure EdgeMetadataIn where
  edge_id : String
  edge_type : EdgeType
  confidence : Option ConfidenceVector
deriving Repr, DecidableEq

structure EdgeMeta where
  edge_id : String
  edge_type : EdgeType
  confidence : ConfidenceVector
deriving Repr, DecidableEq

structure GraphEdge where
  id : String
  source : String
  target : String
  metadata : EdgeMeta
deriving Repr, DecidableEq

structure Hyperedge where
  id : String
  nodes : List String
  metadata : EdgeMetadataIn
deriving Repr, DecidableEq

/-- The state owned by `ASRGoTGraph` (the `timestamp : Date` field is not
modelled; `info_metrics` values are never written by the embedded code, so
their payload is `Unit`). -/
structure ASRGoTGraphState where
  vertices : List (String × GraphNode)
  edges : List (String × GraphEdge)
  hyperedges : List (String × Hyperedge)
  layers : List (String × List String)
  node_types : List (String × NodeType)
  confidence_function : List (String × ConfidenceVector)
  metadata_function : List (String × NodeMeta)
  info_metrics : List (String × Unit)
deriving Repr, DecidableEq

def emptyGraphState : ASRGoTGraphState :=
  { vertices := [], edges := [], hyperedges := [], layers := []
    node_types := [], confidence_function := [], metadata_function := []
    info_metrics := [] }

/-! ### Confidence arithmetic (`src/utils/bayesian.ts`) -/

/-- Evidence record accepted by `BayesianUpdater.updateConfidence`. -/
structure Evidence where
  reliability : ℚ
  statistical_power : Option StatisticalPower
deriving Repr, DecidableEq

namespace BayesianUpdater

/-- `updateDimension`: pseudo-count-10 Beta blend, clamped to `[0,1]`. -/
def updateDimension (prior likelihood reliability : ℚ) : ℚ :=
  let priorAlpha := prior * 10 + 1
  let priorBeta := (1 - prior) * 10 + 1
  let evidenceStrength := likelihood * reliability
  let evidenceAlpha := evidenceStrength * 10
  let evidenceBeta := (1 - evidenceStrength) * 10
  let posteriorAlpha := priorAlpha + evidenceAlpha
  let posteriorBeta := priorBeta + evidenceBeta
  let posterior := posteriorAlpha / (posteriorAlpha + posteriorBeta)
  max 0 (min 1 posterior)

/-- `adjustForStatisticalPower`.  JS computes
`Math.log(sample_size) / Math.log(1000)` with the transcendental `Math.log`;
the embedding abstracts that real-log ratio as the parameter `logRatio1000`
(every claim in scope passes no statistical-power record, so no theorem
depends on its value). -/
def adjustForStatisticalPower (logRatio1000 : ℚ → ℚ)
    (confidence : ConfidenceVector) (power : StatisticalPower) :
    ConfidenceVector :=
  let adjustment : ℚ := 1
  let adjustment :=
    match power.power with
    | none => adjustment
    | some p => if p = 0 then adjustment else adjustment * (1/2 + p * (1/2))
  let adjustment :=
    match power.sample_size with
    | none => adjustment
    | some n =>
      if n = 0 then adjustment
      else
        let sizeAdjustment := min 1 (logRatio1000 n)
        adjustment * (7/10 + sizeAdjustment * (3/10))
  let adjustment :=
    match power.effect_size with
    | none => adjustment
    | some e =>
      if e = 0 then adjustment
      else
        let effectAdjustment := min 1 |e|
        adjustment * (8/10 + effectAdjustment * (2/10))
  { confidence with
    empirical_support := max 0 (min 1 (confidence.empirical_support * adjustment)) }

/-- `updateConfidence` (the `try`/`catch` around it can only fire on a JS
runtime fault, which has no counterpart here). -/
def updateConfidence (logRatio1000 : ℚ → ℚ)
    (prior likelihood : ConfidenceVector) (evidence : Option Evidence) :
    ConfidenceVector :=
  let reliability := jsOrNum ((evidence.map (·.reliability))) (1/2)
  let posterior : ConfidenceVector :=
    { empirical_support :=
        updateDimension prior.empirical_support likelihood.empirical_support reliability
      theoretical_basis :=
        updateDimension prior.theoretical_basis likelihood.theoretical_basis reliability
      methodological_rigor :=
        updateDimension prior.methodological_rigor likelihood.methodological_rigor reliability
      consensus_alignment :=
        updateDimension prior.consensus_alignment likelihood.consensus_alignment reliability }
  match evidence with
  | some ev =>
    match ev.statistical_power with
    | some sp => adjustForStatisticalPower logRatio1000 posterior sp
    | none => posterior
  | none => posterior

/-- `propagateUncertainty`: multiply every dimension by `max(0.1, edgeReliability)`. -/
def propagateUncertainty (sourceConfidence : ConfidenceVector)
    (edgeReliability : ℚ) : ConfidenceVector :=
  let propagationFactor := max (1/10) edgeReliability
  { empirical_support := sourceConfidence.empirical_support * propagationFactor
    theoretical_basis := sourceConfidence.theoretical_basis * propagationFactor
    methodological_rigor := sourceConfidence.methodological_rigor * propagationFactor
    consensus_alignment := sourceConfidence.consensus_alignment * propagationFactor }

end BayesianUpdater

/-! ### Graph store operations (`src/core/graph.ts`) -/

namespace ASRGoTGraph

/-- `averageConfidence`: dimension-wise mean. -/
def averageConfidence (conf1 conf2 : ConfidenceVector) : ConfidenceVector :=
  { empirical_support := (conf1.empirical_support + conf2.empirical_support) / 2
    theoretical_basis := (conf1.theoretical_basis + conf2.theoretical_basis) / 2
    methodological_rigor := (conf1.methodological_rigor + conf2.methodological_rigor) / 2
    consensus_alignment := (conf1.consensus_alignment + conf2.consensus_alignment) / 2 }

/-- `getAverageConfidence`: the scalar aggregate (mean of the 4 dimensions). -/
def getAverageConfidence (confidence : ConfidenceVector) : ℚ :=
  (confidence.empirical_support + confidence.theoretical_basis +
   confidence.methodological_rigor + confidence.consensus_alignment) / 4

/-- Default confidence vector used by the `||` fallbacks of `addNode` and
`addEdge`. -/
def defaultConfidence : ConfidenceVector :=
  { empirical_support := 1/2, theoretical_basis := 1/2
    methodological_rigor := 1/2, consensus_alignment := 1/2 }

/-- The stored node `addNode` builds from its argument and the chosen id
(JS-falsy default filling: `||`). -/
def builtNode (metadata : NodeMetadataIn) (nodeId : String) : GraphNode :=
  { id := nodeId
    metadata :=
      { node_id := nodeId
        label := metadata.label
        type := metadata.type
        provenance := metadata.provenance
        confidence := jsOrDefault metadata.confidence defaultConfidence
        epistemic_status := metadata.epistemic_status
        disciplinary_tags := jsOrDefault metadata.disciplinary_tags ["general"]
        bias_flags := jsOrDefault metadata.bias_flags []
        revision_history := jsOrDefault metadata.revision_history ["Node created"]
        impact_score := jsOrNum metadata.impact_score (1/2)
        layer_id := metadata.layer_id
        falsification_criteria := metadata.falsification_criteria
        statistical_power := metadata.statistical_power } }

/-- The id under which `addNode` stores: the supplied one, or the
regenerated uuid on a collision. -/
def addNodeId (s : ASRGoTGraphState) (metadata : NodeMetadataIn)
    (regenId : String) : String :=
  if mapHas s.vertices metadata.node_id then regenId else metadata.node_id

/-- The state after `addNode` registers the node in the vertex and mirror
maps and, when a layer id is given, in the layer index. -/
def addNodeState (s : ASRGoTGraphState) (metadata : NodeMetadataIn)
    (node : GraphNode) : ASRGoTGraphState :=
  let s :=
    { s with
      vertices := mapSet s.vertices node.id node
      node_types := mapSet s.node_types node.id metadata.type
      confidence_function :=
        mapSet s.confidence_function node.id node.metadata.confidence
      metadata_function := mapSet s.metadata_function node.id node.metadata }
  match metadata.layer_id with
  | none => s
  | some lid =>
    let s :=
      if mapHas s.layers lid then s
      else { s with layers := mapSet s.layers lid [] }
    { s with
      layers := mapSet s.layers lid
        (jsOrDefault (mapGet s.layers lid) [] ++ [node.id]) }

/-- `addNode`.  `regenId` stands for the `uuidv4()` drawn when the supplied
id collides with an existing one.  Throws (`Except.error`) when `node_id`
is falsy, mirroring `if (!metadata.node_id) throw`. -/
def addNode (s : ASRGoTGraphState) (metadata : NodeMetadataIn)
    (regenId : String) : Except String (String × ASRGoTGraphState) :=
  if metadata.node_id = "" then
    Except.error "Invalid metadata: node_id is required"
  else
    let nodeId := addNodeId s metadata regenId
    Except.ok (nodeId, addNodeState s metadata (builtNode metadata nodeId))

def getNode (s : ASRGoTGraphState) (nodeId : String) : Option GraphNode :=
  mapGet s.vertices nodeId

/-- `updateNodeConfidence`: returns `false` (never throws) when the node is
absent; otherwise applies the Bayesian update and stores the result. -/
def updateNodeConfidence (logRatio1000 : ℚ → ℚ) (s : ASRGoTGraphState)
    (nodeId : String) (newConfidence : ConfidenceVector)
    (evidence : Option Evidence) : Bool × ASRGoTGraphState :=
  match mapGet s.vertices nodeId with
  | none => (false, s)
  | some node =>
    let updatedConfidence :=
      BayesianUpdater.updateConfidence logRatio1000 node.metadata.confidence
        newConfidence evidence
    let node :=
      { node with
        metadata :=
          { node.metadata with
            confidence := updatedConfidence
            revision_history :=
              node.metadata.revision_history ++
                ["Confidence updated via Bayesian inference"] } }
    (true,
      { s with
        vertices := mapSet s.vertices nodeId node
        confidence_function :=
          mapSet s.confidence_function nodeId updatedConfidence })

/-- The stored edge `addEdge` builds. -/
def builtEdge (sourceId targetId : String) (metadata : EdgeMetadataIn)
    (edgeId : String) : GraphEdge :=
  { id := edgeId
    source := sourceId
    target := targetId
    metadata :=
      { edge_id := edgeId
        edge_type := metadata.edge_type
        confidence := jsOrDefault metadata.confidence defaultConfidence } }

/-- The id under which `addEdge` stores: the supplied one, or the
regenerated uuid on a collision. -/
def addEdgeId (s : ASRGoTGraphState) (metadata : EdgeMetadataIn)
    (regenId : String) : String :=
  if mapHas s.edges metadata.edge_id then regenId else metadata.edge_id

/-- `addEdge`.  Fails when an argument is falsy or an endpoint is missing;
`regenId` stands for the `uuidv4()` drawn on an edge-id collision. -/
def addEdge (s : ASRGoTGraphState) (sourceId targetId : String)
    (metadata : EdgeMetadataIn) (regenId : String) :
    Except String (String × ASRGoTGraphState) :=
  if sourceId = "" ∨ targetId = "" ∨ metadata.edge_id = "" then
    Except.error "Invalid edge parameters"
  else if mapHas s.vertices sourceId = false then
    Except.error ("Source node " ++ sourceId ++ " does not exist")
  else if mapHas s.vertices targetId = false then
    Except.error ("Target node " ++ targetId ++ " does not exist")
  else
    let edgeId := addEdgeId s metadata regenId
    Except.ok (edgeId,
      { s with
        edges := mapSet s.edges edgeId
          (builtEdge sourceId targetId metadata edgeId) })

/-- `addHyperedge` (no endpoint-existence check). -/
def addHyperedge (s : ASRGoTGraphState) (nodeIds : List String)
    (metadata : EdgeMetadataIn) : String × ASRGoTGraphState :=
  let hyperedge : Hyperedge :=
    { id := metadata.edge_id, nodes := nodeIds, metadata := metadata }
  (hyperedge.id,
    { s with hyperedges := mapSet s.hyperedges hyperedge.id hyperedge })

/-- `removeNode`: drops the vertex (and its entries in the mirror maps),
removes it from every layer (first occurrence, as `indexOf`/`splice` does)
and deletes every incident edge. -/
def removeNode (s : ASRGoTGraphState) (nodeId : String) : ASRGoTGraphState :=
  { s with
    vertices := mapDelete s.vertices nodeId
    node_types := mapDelete s.node_types nodeId
    confidence_function := mapDelete s.confidence_function nodeId
    metadata_function := mapDelete s.metadata_function nodeId
    info_metrics := mapDelete s.info_metrics nodeId
    layers := s.layers.map (fun p => (p.1, p.2.erase nodeId))
    edges := s.edges.filter
      (fun p => ¬ (p.2.source = nodeId ∨ p.2.target = nodeId)) }

/-- One rewriting pass of `transferEdges`: rewrite the source endpoint,
`else` the target endpoint (note the `else if` — at most one endpoint per
edge per pass). -/
def transferEdge (fromNodeId toNodeId : String) (p : String × GraphEdge) :
    String × GraphEdge :=
  if p.2.source = fromNodeId then (p.1, { p.2 with source := toNodeId })
  else if p.2.target = fromNodeId then (p.1, { p.2 with target := toNodeId })
  else p

def transferEdges (s : ASRGoTGraphState) (fromNodeId toNodeId : String) :
    ASRGoTGraphState :=
  { s with edges := s.edges.map (transferEdge fromNodeId toNodeId) }

/-- One iteration of the `pruneNodes` loop. -/
def pruneStep (confidenceThreshold impactThreshold : ℚ)
    (acc : List String × ASRGoTGraphState) (p : String × GraphNode) :
    List String × ASRGoTGraphState :=
  let avgConfidence := getAverageConfidence p.2.metadata.confidence
  if avgConfidence < confidenceThreshold ∧
      p.2.metadata.impact_score < impactThreshold then
    (acc.1 ++ [p.1], removeNode acc.2 p.1)
  else acc

/-- `pruneNodes`: iterate the vertex map, removing each node whose aggregate
confidence and impact are both strictly below the thresholds. -/
def pruneNodes (s : ASRGoTGraphState)
    (confidenceThreshold impactThreshold : ℚ) :
    List String × ASRGoTGraphState :=
  s.vertices.foldl (pruneStep confidenceThreshold impactThreshold) ([], s)

/-- The metadata `mergeNodes` synthesizes for the merged node. -/
def mergedMetadata (node1 node2 : GraphNode) (nodeId1 nodeId2 : String)
    (mergedId : String) : NodeMetadataIn :=
  { node_id := mergedId
    label := node1.metadata.label ++ " + " ++ node2.metadata.label
    type := node1.metadata.type
    provenance := "Merged from " ++ nodeId1 ++ " and " ++ nodeId2
    confidence := some (averageConfidence node1.metadata.confidence
      node2.metadata.confidence)
    epistemic_status := "merged"
    disciplinary_tags := some ((node1.metadata.disciplinary_tags ++
      node2.metadata.disciplinary_tags).dedup)
    bias_flags := some ((node1.metadata.bias_flags ++
      node2.metadata.bias_flags).dedup)
    revision_history := some (node1.metadata.revision_history ++
      node2.metadata.revision_history ++ ["Node created by merging"])
    impact_score := some (max node1.metadata.impact_score
      node2.metadata.impact_score)
    layer_id := none
    falsification_criteria := none
    statistical_power := none }

/-- `mergeNodes`.  `mergedId` / `regenId` stand for the two `uuidv4()` draws
(candidate id of the merged node, and `addNode`'s regeneration on a
collision).  Unlike `createIBN`, `mergeNodes` has no `try`/`catch`, so an
`addNode` failure propagates. -/
def mergeNodes (s : ASRGoTGraphState) (nodeId1 nodeId2 : String)
    (semanticOverlap : ℚ) (mergedId regenId : String) :
    Except String (Option String × ASRGoTGraphState) :=
  if semanticOverlap < 8/10 then Except.ok (none, s)
  else
    match mapGet s.vertices nodeId1, mapGet s.vertices nodeId2 with
    | some node1, some node2 =>
      match addNode s (mergedMetadata node1 node2 nodeId1 nodeId2 mergedId)
          regenId with
      | Except.error e => Except.error e
      | Except.ok (mId, s) =>
        let s := transferEdges s nodeId1 mId
        let s := transferEdges s nodeId2 mId
        let s := removeNode s nodeId1
        let s := removeNode s nodeId2
        Except.ok (some mId, s)
    | _, _ => Except.ok (none, s)

/-- The three `uuidv4()` draws of `createIBN` plus the `addNode`/`addEdge`
collision regenerations. -/
structure IBNIds where
  nodeId : String
  nodeRegen : String
  edge1Id : String
  edge1Regen : String
  edge2Id : String
  edge2Regen : String
deriving Repr, DecidableEq

/-- The metadata `createIBN` synthesizes for the bridge node. -/
def ibnMetadata (sourceNode targetNode : GraphNode)
    (sourceNodeId targetNodeId : String) (ibnId : String) : NodeMetadataIn :=
  { node_id := ibnId
    label := "IBN: " ++ sourceNode.metadata.label ++ " <-> " ++
      targetNode.metadata.label
    type := NodeType.ibn
    provenance := "Interdisciplinary Bridge between " ++ sourceNodeId ++
      " and " ++ targetNodeId
    confidence := some (averageConfidence sourceNode.metadata.confidence
      targetNode.metadata.confidence)
    epistemic_status := "interdisciplinary_bridge"
    disciplinary_tags := some (sourceNode.metadata.disciplinary_tags ++
      targetNode.metadata.disciplinary_tags)
    bias_flags := some []
    revision_history := some ["IBN created automatically"]
    impact_score := some (max sourceNode.metadata.impact_score
      targetNode.metadata.impact_score)
    layer_id := none
    falsification_criteria := none
    statistical_power := none }

/-- `createIBN`.  The surrounding `try`/`catch` returns `null` on an inner
throw but keeps the mutations already performed, which the error branches
reproduce. -/
def createIBN (s : ASRGoTGraphState) (sourceNodeId targetNodeId : String)
    (semantic_similarity : ℚ) (ids : IBNIds) :
    Option String × ASRGoTGraphState :=
  match mapGet s.vertices sourceNodeId, mapGet s.vertices targetNodeId with
  | some sourceNode, some targetNode =>
    let sourceTags := sourceNode.metadata.disciplinary_tags
    let targetTags := targetNode.metadata.disciplinary_tags
    let hasIntersection := sourceTags.any (fun tag => targetTags.contains tag)
    if hasIntersection ∨ semantic_similarity ≤ 1/2 then (none, s)
    else
      match addNode s
          (ibnMetadata sourceNode targetNode sourceNodeId targetNodeId
            ids.nodeId) ids.nodeRegen with
      | Except.error _ => (none, s)
      | Except.ok (ibnId, s1) =>
        match addEdge s1 sourceNodeId ibnId
            { edge_id := ids.edge1Id, edge_type := EdgeType.other
              confidence := some sourceNode.metadata.confidence }
            ids.edge1Regen with
        | Except.error _ => (none, s1)
        | Except.ok (_, s2) =>
          match addEdge s2 ibnId targetNodeId
              { edge_id := ids.edge2Id, edge_type := EdgeType.other
                confidence := some targetNode.metadata.confidence }
              ids.edge2Regen with
          | Except.error _ => (none, s2)
          | Except.ok (_, s3) => (some ibnId, s3)
  | _, _ => (none, s)

def getNodeCount (s : ASRGoTGraphState) : Nat := s.vertices.length

def getEdgeCount (s : ASRGoTGraphState) : Nat := s.edges.length

end ASRGoTGraph

/-! ### Stage pipeline skeleton (`ASRGoTPipeline`)

The 8 stage bodies (`stage1_Initialization` … `stage8_Reflection`) and the
fallback generator `createFailSafeOutput` draw on `Math.random`, `Date` and
fresh uuids, so their outcomes are modelled by an arbitrary `Behavior`
oracle.  A stage body may mutate the graph, the dynamic side-channel fields
attached to the context, and append to the array fields of its
`StageResult`; it may also throw at any point, retaining the mutations made
before the throw (the oracle's error branch carries them).  The
retry/timeout/fallback skeleton (`executeStage`), the stage loop and the
top-level handlers (`executeComplete`, `handleCriticalError`,
`handlePipelineFailure`) are embedded from the source. -/

namespace ASRGoTPipeline

structure ResearchQuery where
  query : String
  domain : Option (List String)
deriving Repr, DecidableEq

structure UserProfile where
  identity : String
  research_focus : Option (List String)
deriving Repr, DecidableEq

structure StageResult where
  stage : Nat
  stage_name : String
  success : Bool
  nodes_created : List String
  edges_created : List String
  errors : List String
  warnings : List String
  execution_time_ms : ℚ
deriving Repr, DecidableEq

structure ComputationalBudget where
  max_nodes : Nat
  max_edges : Nat
  max_execution_time_ms : ℚ
deriving Repr, DecidableEq

structure AuditResults where
  criticalIssues : List String
  auditWarnings : List String
  quality_score : Option ℚ
deriving Repr, DecidableEq

/-- The ad hoc fields the stages attach to the context
(`(context as any).extracted_subgraph` and friends). -/
structure SideChannels where
  extracted_subgraph : Option (List GraphNode × List GraphEdge)
  final_narrative : Option String
  audit_results : Option AuditResults
  quality_score : Option ℚ
deriving Repr, DecidableEq

structure ASRGoTContext where
  task_query : String
  user_profile : UserProfile
  current_stage : Nat
  graph_state : ASRGoTGraphState
  stage_results : List StageResult
  fail_safe_active : Bool
  computational_budget : ComputationalBudget
  side : SideChannels
deriving Repr, DecidableEq

/-- The pipeline object's own mutable fields. -/
structure PipelineState where
  graph : ASRGoTGraphState
  failSafeActive : Bool
deriving Repr, DecidableEq

/-- What a stage body appends to its `StageResult`'s array fields. -/
structure StageDelta where
  nodes_created : List String
  edges_created : List String
  errors : List String
  warnings : List String
deriving Repr, DecidableEq

/-- The mutations a stage body (or the fallback generator) performs before
returning or throwing. -/
structure StageOutcome where
  graph : ASRGoTGraphState
  side : SideChannels
  delta : StageDelta
deriving Repr, DecidableEq

/-- Oracle for the nondeterministic stage bodies: given the stage number,
the attempt number, the current graph and context and the result-in-progress,
either return normally or throw (with message and retained mutations). -/
structure Behavior where
  stageLogic : Nat → Nat → ASRGoTGraphState → ASRGoTContext → StageResult →
    Except (String × StageOutcome) StageOutcome
  failSafeOutput : Nat → ASRGoTGraphState → ASRGoTContext → StageResult →
    Except (String × StageOutcome) StageOutcome

def getStageNames : List String :=
  ["Initialization", "Decomposition", "Hypothesis/Planning",
   "Evidence Integration", "Pruning/Merging", "Subgraph Extraction",
   "Composition", "Reflection"]

/-- The blank `StageResult` built at the top of `executeStage`
(`execution_time_ms` is wall-clock time, recorded as `0` here). -/
def initResult (stage : Nat) : StageResult :=
  { stage := stage
    stage_name := getStageNames.getD (stage - 1) ""
    success := false
    nodes_created := []
    edges_created := []
    errors := []
    warnings := []
    execution_time_ms := 0 }

def applyDelta (r : StageResult) (d : StageDelta) : StageResult :=
  { r with
    nodes_created := r.nodes_created ++ d.nodes_created
    edges_created := r.edges_created ++ d.edges_created
    errors := r.errors ++ d.errors
    warnings := r.warnings ++ d.warnings }

/-- The retry loop of `executeStage`: run the stage logic, catch a throw,
back off and retry while attempts remain, otherwise force success through
the fallback generator (whose own throw is also caught).  `fuel` is the
number of loop iterations left (`maxRetries - attempt`), so the loop of the
source terminates structurally here. -/
def attemptLoop (B : Behavior) (stage maxRetries : Nat) :
    Nat → Nat → ASRGoTGraphState → ASRGoTContext → StageResult →
    ASRGoTGraphState × ASRGoTContext × StageResult
  | 0, _, g, ctx, result => (g, ctx, result)
  | fuel + 1, attempt, g, ctx, result =>
    -- `executeStageLogic` clears a retry's partial id lists first
    let result :=
      if attempt > 0 then
        { result with nodes_created := [], edges_created := [] }
      else result
    match B.stageLogic stage attempt g ctx result with
    | Except.ok o =>
      (o.graph, { ctx with side := o.side },
        { applyDelta result o.delta with success := true })
    | Except.error (msg, o) =>
      let result := applyDelta result o.delta
      let g := o.graph
      let ctx := { ctx with side := o.side }
      let attempt' := attempt + 1
      let result :=
        { result with
          errors := result.errors ++
            ["Stage " ++ toString stage ++ " attempt " ++ toString attempt' ++
              " error: " ++ msg] }
      if attempt' ≥ maxRetries then
        let result := { result with success := false }
        match B.failSafeOutput stage g ctx result with
        | Except.ok o2 =>
          let result := applyDelta result o2.delta
          (o2.graph, { ctx with side := o2.side },
            { result with
              success := true
              warnings := result.warnings ++
                ["Stage " ++ toString stage ++
                  " completed with fallback output after " ++
                  toString attempt' ++ " attempts"] })
        | Except.error (m2, o2) =>
          let result := applyDelta result o2.delta
          let result :=
            { result with errors := result.errors ++
                ["Fallback creation failed: " ++ m2] }
          (o2.graph, { ctx with side := o2.side },
            { result with
              success := true
              warnings := result.warnings ++
                ["Stage " ++ toString stage ++
                  " continued with minimal output due to fallback failure"] })
      else attemptLoop B stage maxRetries fuel attempt' g ctx result

/-- `executeStage`: 3 attempts normally, 1 in fail-safe mode. -/
def executeStage (B : Behavior) (st : PipelineState) (stage : Nat)
    (ctx : ASRGoTContext) : PipelineState × ASRGoTContext × StageResult :=
  let maxRetries := if st.failSafeActive then 1 else 3
  let (g, ctx, result) :=
    attemptLoop B stage maxRetries maxRetries 0 st.graph ctx (initResult stage)
  ({ st with graph := g }, ctx, result)

def exceedsComputationalBudget (st : PipelineState) (ctx : ASRGoTContext) :
    Bool :=
  decide (st.graph.vertices.length > ctx.computational_budget.max_nodes) ||
  decide (st.graph.edges.length > ctx.computational_budget.max_edges) ||
  decide ((ctx.stage_results.map (·.execution_time_ms)).sum >
    ctx.computational_budget.max_execution_time_ms)

/-- `handleCriticalError` (from the source; with `executeStage` total, the
`catch` that invokes it in `executeComplete` is unreachable). -/
def handleCriticalError (ctx : ASRGoTContext) (stage : Nat) (errMsg : String) :
    ASRGoTContext :=
  { ctx with
    stage_results := ctx.stage_results ++
      [{ stage := stage
         stage_name := getStageNames.getD (stage - 1) ""
         success := false
         nodes_created := []
         edges_created := []
         errors := ["Critical error: " ++ errMsg]
         warnings := ["Stage failed, continuing with fail-safe mode"]
         execution_time_ms := 0 }] }

/-- `handlePipelineFailure`: the top-level emergency output. -/
def handlePipelineFailure (ctx : ASRGoTContext) (errMsg : String) :
    ASRGoTContext :=
  let ctx :=
    if ctx.stage_results.isEmpty then
      { ctx with
        stage_results := ctx.stage_results ++
          [{ stage := 0
             stage_name := "Pipeline Failure"
             success := false
             nodes_created := []
             edges_created := []
             errors := ["Pipeline failed: " ++ errMsg]
             warnings := ["Minimal output generated"]
             execution_time_ms := 0 }] }
    else ctx
  { ctx with
    side :=
      { ctx.side with
        final_narrative := some ("Analysis of query \"" ++ ctx.task_query ++
          "\" encountered critical errors. Partial results may be available. Error: "
          ++ errMsg)
        quality_score := some (1/10) } }

/-- The `for (stage = 1..8)` loop body of `executeComplete`, one stage per
list element.  The per-stage `try`/`catch` of the source never fires because
`executeStage` is total, so the loop propagates no exception; the `Except`
codomain records that an escaping exception would carry the context to the
top-level handler. -/
def runStages (B : Behavior) :
    List Nat → PipelineState → ASRGoTContext →
    Except (String × ASRGoTContext) (PipelineState × ASRGoTContext)
  | [], st, ctx => Except.ok (st, ctx)
  | stage :: rest, st, ctx =>
    let ctx := { ctx with current_stage := stage }
    let (st, ctx, result) := executeStage B st stage ctx
    let ctx := { ctx with stage_results := ctx.stage_results ++ [result] }
    let (st, ctx) :=
      if result.success = false ∧ st.failSafeActive = false then
        -- activateFailSafe, retry once, replace the last result
        let st := { st with failSafeActive := true }
        let ctx := { ctx with fail_safe_active := true }
        let (st, ctx, retryResult) := executeStage B st stage ctx
        (st, { ctx with
          stage_results := ctx.stage_results.dropLast ++ [retryResult] })
      else (st, ctx)
    let ctx := { ctx with graph_state := st.graph }
    let (st, ctx) :=
      if exceedsComputationalBudget st ctx then
        ({ st with failSafeActive := true }, { ctx with fail_safe_active := true })
      else (st, ctx)
    runStages B rest st ctx

/-- The context built at the top of `executeComplete` (the constant
`communication_preferences` record carries no claim-relevant data and is
omitted). -/
def initialContext (query : ResearchQuery) (userProfile : UserProfile) :
    ASRGoTContext :=
  { task_query := query.query
    user_profile := userProfile
    current_stage := 0
    graph_state := emptyGraphState
    stage_results := []
    fail_safe_active := false
    computational_budget :=
      { max_nodes := 1000, max_edges := 5000, max_execution_time_ms := 300000 }
    side :=
      { extracted_subgraph := none, final_narrative := none
        audit_results := none, quality_score := none } }

/-- The top-level `catch` of `executeComplete`: a normal completion returns
the context; an escaping failure is converted into emergency output instead
of rejecting. -/
def finishPipeline
    (out : Except (String × ASRGoTContext) (PipelineState × ASRGoTContext)) :
    Except String ASRGoTContext :=
  match out with
  | Except.ok (_, ctx) => Except.ok ctx
  | Except.error (msg, ctx) => Except.ok (handlePipelineFailure ctx msg)

/-- `executeComplete`: run the 8 stages under the top-level `catch`. -/
def executeComplete (B : Behavior) (query : ResearchQuery)
    (userProfile : UserProfile) : Except String ASRGoTContext :=
  let context := initialContext query userProfile
  finishPipeline (runStages B [1, 2, 3, 4, 5, 6, 7, 8]
    { graph := emptyGraphState, failSafeActive := false } context)

end ASRGoTPipeline

/-! ### Reference-level model of `getState`

`ASRGoTGraph.getState` returns `{ ...this.state }`: a fresh record whose
fields are the *same* `Map` objects as the live state's (the maps are
allocated once in the constructor and every operation mutates them in
place).  To express this sharing, the record fields are modelled as
references into a heap of map contents; an operation loads the contents at
the live references, transforms them with the value-level operation above,
and stores them back at the same references. -/

namespace SnapshotModel

abbrev Ref := Nat

/-- The `ASRGoTGraphState` record as it exists at runtime: one reference per
`Map` field. -/
structure StateRefs where
  vertices : Ref
  edges : Ref
  hyperedges : Ref
  layers : Ref
  node_types : Ref
  confidence_function : Ref
  metadata_function : Ref
  info_metrics : Ref
deriving Repr, DecidableEq

structure Heap where
  vertexMaps : List (Ref × List (String × GraphNode))
  edgeMaps : List (Ref × List (String × GraphEdge))
  hyperMaps : List (Ref × List (String × Hyperedge))
  layerMaps : List (Ref × List (String × List String))
  ntMaps : List (Ref × List (String × NodeType))
  cfMaps : List (Ref × List (String × ConfidenceVector))
  mfMaps : List (Ref × List (String × NodeMeta))
  imMaps : List (Ref × List (String × Unit))
deriving Repr, DecidableEq

structure ASRGoTGraphObj where
  state : StateRefs
  heap : Heap
deriving Repr, DecidableEq

/-- The constructor: allocate the eight empty maps. -/
def newGraph : ASRGoTGraphObj :=
  { state :=
      { vertices := 0, edges := 1, hyperedges := 2, layers := 3
        node_types := 4, confidence_function := 5, metadata_function := 6
        info_metrics := 7 }
    heap :=
      { vertexMaps := [(0, [])], edgeMaps := [(1, [])], hyperMaps := [(2, [])]
        layerMaps := [(3, [])], ntMaps := [(4, [])], cfMaps := [(5, [])]
        mfMaps := [(6, [])], imMaps := [(7, [])] } }

/-- `getState(): return { ...this.state }` — a fresh record holding the same
references. -/
def getState (g : ASRGoTGraphObj) : StateRefs :=
  { vertices := g.state.vertices
    edges := g.state.edges
    hyperedges := g.state.hyperedges
    layers := g.state.layers
    node_types := g.state.node_types
    confidence_function := g.state.confidence_function
    metadata_function := g.state.metadata_function
    info_metrics := g.state.info_metrics }

/-- What a holder of a (possibly stale) snapshot record sees when reading
its `vertices` map. -/
def viewVertices (g : ASRGoTGraphObj) (snap : StateRefs) :
    Option (List (String × GraphNode)) :=
  mapGet g.heap.vertexMaps snap.vertices

def viewEdges (g : ASRGoTGraphObj) (snap : StateRefs) :
    Option (List (String × GraphEdge)) :=
  mapGet g.heap.edgeMaps snap.edges

def viewHyperedges (g : ASRGoTGraphObj) (snap : StateRefs) :
    Option (List (String × Hyperedge)) :=
  mapGet g.heap.hyperMaps snap.hyperedges

def viewLayers (g : ASRGoTGraphObj) (snap : StateRefs) :
    Option (List (String × List String)) :=
  mapGet g.heap.layerMaps snap.layers

/-- Dereference the live state's maps into contents. -/
def loadState (g : ASRGoTGraphObj) : ASRGoTGraphState :=
  { vertices := (mapGet g.heap.vertexMaps g.state.vertices).getD []
    edges := (mapGet g.heap.edgeMaps g.state.edges).getD []
    hyperedges := (mapGet g.heap.hyperMaps g.state.hyperedges).getD []
    layers := (mapGet g.heap.layerMaps g.state.layers).getD []
    node_types := (mapGet g.heap.ntMaps g.state.node_types).getD []
    confidence_function := (mapGet g.heap.cfMaps g.state.confidence_function).getD []
    metadata_function := (mapGet g.heap.mfMaps g.state.metadata_function).getD []
    info_metrics := (mapGet g.heap.imMaps g.state.info_metrics).getD [] }

/-- Write contents back to the same references (in-place `Map` mutation). -/
def storeState (g : ASRGoTGraphObj) (s : ASRGoTGraphState) : ASRGoTGraphObj :=
  { g with
    heap :=
      { vertexMaps := mapSet g.heap.vertexMaps g.state.vertices s.vertices
        edgeMaps := mapSet g.heap.edgeMaps g.state.edges s.edges
        hyperMaps := mapSet g.heap.hyperMaps g.state.hyperedges s.hyperedges
        layerMaps := mapSet g.heap.layerMaps g.state.layers s.layers
        ntMaps := mapSet g.heap.ntMaps g.state.node_types s.node_types
        cfMaps := mapSet g.heap.cfMaps g.state.confidence_function s.confidence_function
        mfMaps := mapSet g.heap.mfMaps g.state.metadata_function s.metadata_function
        imMaps := mapSet g.heap.imMaps g.state.info_metrics s.info_metrics } }

/-- The public mutating operations (the arguments standing for uuid draws
included). -/
inductive GraphMutation where
  | addNodeM (m : NodeMetadataIn) (regenId : String)
  | addEdgeM (src tgt : String) (m : EdgeMetadataIn) (regenId : String)
  | updateNodeConfidenceM (logRatio1000 : ℚ → ℚ) (nid : String)
      (c : ConfidenceVector) (ev : Option Evidence)
  | removeNodeM (nid : String)
  | pruneNodesM (confThresh impactThresh : ℚ)
  | mergeNodesM (a b : String) (overlap : ℚ) (mergedId regenId : String)
  | createIBNM (a b : String) (sim : ℚ) (ids : ASRGoTGraph.IBNIds)

/-- Apply one public operation to the graph object.  Operations that throw
(`addNode`, `addEdge`, `mergeNodes`) validate before mutating, so on a throw
the contents are unchanged. -/
def applyMutation (g : ASRGoTGraphObj) (mu : GraphMutation) : ASRGoTGraphObj :=
  let s := loadState g
  let s' :=
    match mu with
    | GraphMutation.addNodeM m rid =>
      match ASRGoTGraph.addNode s m rid with
      | Except.ok (_, s') => s'
      | Except.error _ => s
    | GraphMutation.addEdgeM src tgt m rid =>
      match ASRGoTGraph.addEdge s src tgt m rid with
      | Except.ok (_, s') => s'
      | Except.error _ => s
    | GraphMutation.updateNodeConfidenceM f nid c ev =>
      (ASRGoTGraph.updateNodeConfidence f s nid c ev).2
    | GraphMutation.removeNodeM nid => ASRGoTGraph.removeNode s nid
    | GraphMutation.pruneNodesM c i => (ASRGoTGraph.pruneNodes s c i).2
    | GraphMutation.mergeNodesM a b ov mid rid =>
      match ASRGoTGraph.mergeNodes s a b ov mid rid with
      | Except.ok (_, s') => s'
      | Except.error _ => s
    | GraphMutation.createIBNM a b sim ids =>
      (ASRGoTGraph.createIBN s a b sim ids).2
  storeState g s'

end SnapshotModel

/-! ### Lemmas about the association-list map model -/

section MapLemmas

variable {κ α : Type} [DecidableEq κ]

theorem mapGet_nil (k : κ) : mapGet ([] : List (κ × α)) k = none := rfl

theorem mapGet_cons (p : κ × α) (m : List (κ × α)) (k : κ) :
    mapGet (p :: m) k = if p.1 = k then some p.2 else mapGet m k := by
  by_cases h : p.1 = k <;> simp [mapGet, List.find?_cons, h]

theorem mapHas_iff (m : List (κ × α)) (k : κ) :
    mapHas m k = true ↔ ∃ v, mapGet m k = some v := by
  simp [mapHas, Option.isSome_iff_exists]

theorem mapGet_mapSet_self (m : List (κ × α)) (k : κ) (v : α) :
    mapGet (mapSet m k v) k = some v := by
  induction m with
  | nil => simp [mapSet, mapGet_cons]
  | cons p rest ih =>
    by_cases h : p.1 = k
    · simp [mapSet, h, mapGet_cons]
    · simp [mapSet, h, mapGet_cons, ih]

theorem mapGet_mapSet_ne (m : List (κ × α)) (k k' : κ) (v : α) (h : k' ≠ k) :
    mapGet (mapSet m k v) k' = mapGet m k' := by
  have hkk : ¬ k = k' := fun hh => h hh.symm
  induction m with
  | nil => simp [mapSet, mapGet_cons, mapGet_nil, hkk]
  | cons p rest ih =>
    by_cases hp : p.1 = k
    · have hk' : ¬ p.1 = k' := by rw [hp]; exact hkk
      simp only [mapSet, if_pos hp]
      rw [mapGet_cons, mapGet_cons, if_neg hkk, if_neg hk']
    · simp only [mapSet, if_neg hp]
      rw [mapGet_cons, mapGet_cons, ih]

theorem mapGet_mem {m : List (κ × α)} {k : κ} {v : α}
    (h : mapGet m k = some v) : (k, v) ∈ m := by
  induction m with
  | nil => simp [mapGet] at h
  | cons p rest ih =>
    rw [mapGet_cons] at h
    by_cases hp : p.1 = k
    · rw [if_pos hp] at h
      have hv : p.2 = v := by injection h
      have hpkv : p = (k, v) := by
        obtain ⟨p1, p2⟩ := p
        simp only at hp hv
        rw [hp, hv]
      rw [← hpkv]
      exact List.mem_cons_self p rest
    · rw [if_neg hp] at h
      exact List.mem_cons_of_mem _ (ih h)

theorem mapSet_eq_append_of_not_has (m : List (κ × α)) (k : κ) (v : α)
    (h : mapHas m k = false) : mapSet m k v = m ++ [(k, v)] := by
  induction m with
  | nil => rfl
  | cons p rest ih =>
    rw [mapHas, mapGet_cons] at h
    by_cases hp : p.1 = k
    · simp [hp] at h
    · simp only [if_neg hp] at h
      simp [mapSet, hp, ih (by simpa [mapHas] using h)]

theorem length_mapSet_of_not_has (m : List (κ × α)) (k : κ) (v : α)
    (h : mapHas m k = false) : (mapSet m k v).length = m.length + 1 := by
  rw [mapSet_eq_append_of_not_has m k v h]
  simp

theorem mapDelete_cons_of_eq {p : κ × α} {m : List (κ × α)} {k : κ}
    (hp : p.1 = k) : mapDelete (p :: m) k = mapDelete m k := by
  simp [mapDelete, List.filter_cons, hp]

theorem mapDelete_cons_of_ne {p : κ × α} {m : List (κ × α)} {k : κ}
    (hp : ¬ p.1 = k) : mapDelete (p :: m) k = p :: mapDelete m k := by
  simp [mapDelete, List.filter_cons, hp]

theorem mapGet_mapDelete_ne (m : List (κ × α)) (k k' : κ) (h : k' ≠ k) :
    mapGet (mapDelete m k) k' = mapGet m k' := by
  induction m with
  | nil => rfl
  | cons p rest ih =>
    by_cases hp : p.1 = k
    · have hk' : ¬ p.1 = k' := by rw [hp]; exact fun hh => h hh.symm
      rw [mapDelete_cons_of_eq hp, ih, mapGet_cons, if_neg hk']
    · rw [mapDelete_cons_of_ne hp, mapGet_cons, mapGet_cons, ih]

theorem mapGet_mapDelete_self (m : List (κ × α)) (k : κ) :
    mapGet (mapDelete m k) k = none := by
  induction m with
  | nil => rfl
  | cons p rest ih =>
    by_cases hp : p.1 = k
    · rw [mapDelete_cons_of_eq hp, ih]
    · rw [mapDelete_cons_of_ne hp, mapGet_cons, if_neg hp, ih]

theorem mapHas_mapDelete (m : List (κ × α)) (k k' : κ) :
    mapHas (mapDelete m k) k' = if k' = k then false else mapHas m k' := by
  by_cases h : k' = k
  · simp [h, mapHas, mapGet_mapDelete_self]
  · simp [h, mapHas, mapGet_mapDelete_ne m k k' h]

theorem mapHas_mapSet (m : List (κ × α)) (k k' : κ) (v : α) :
    mapHas (mapSet m k v) k' = if k' = k then true else mapHas m k' := by
  by_cases h : k' = k
  · simp [h, mapHas, mapGet_mapSet_self]
  · simp [h, mapHas, mapGet_mapSet_ne m k k' v h]

theorem mem_mapDelete_iff (m : List (κ × α)) (k : κ) (p : κ × α) :
    p ∈ mapDelete m k ↔ p ∈ m ∧ ¬ p.1 = k := by
  simp [mapDelete, List.mem_filter]

/-- Keys of an association-list map. -/
def mapKeys (m : List (κ × α)) : List κ := m.map Prod.fst

theorem mapHas_iff_mem_keys (m : List (κ × α)) (k : κ) :
    mapHas m k = true ↔ k ∈ mapKeys m := by
  induction m with
  | nil => simp [mapHas, mapGet, mapKeys]
  | cons p rest ih =>
    rw [mapHas, mapGet_cons]
    by_cases hp : p.1 = k
    · simp [hp, mapKeys]
    · rw [if_neg hp, ← mapHas]
      simp only [mapKeys, List.map_cons, List.mem_cons]
      rw [ih]
      constructor
      · intro hk
        exact Or.inr hk
      · rintro (hk | hk)
        · exact absurd hk.symm hp
        · exact hk

theorem mapKeys_mapSet_of_not_has (m : List (κ × α)) (k : κ) (v : α)
    (h : mapHas m k = false) : mapKeys (mapSet m k v) = mapKeys m ++ [k] := by
  rw [mapSet_eq_append_of_not_has m k v h]
  simp [mapKeys]

theorem nodup_mapKeys_mapDelete (m : List (κ × α)) (k : κ)
    (h : (mapKeys m).Nodup) : (mapKeys (mapDelete m k)).Nodup := by
  have hsub : List.Sublist (mapDelete m k) m := List.filter_sublist m
  exact (hsub.map Prod.fst).nodup h

theorem mapDelete_eq_self_of_not_has {m : List (κ × α)} {k : κ}
    (h : mapHas m k = false) : mapDelete m k = m := by
  induction m with
  | nil => rfl
  | cons p rest ih =>
    rw [mapHas, mapGet_cons] at h
    by_cases hp : p.1 = k
    · simp [hp] at h
    · rw [if_neg hp] at h
      rw [mapDelete_cons_of_ne hp, ih (by simpa [mapHas] using h)]

theorem length_mapDelete_of_has {m : List (κ × α)} {k : κ}
    (hnd : (mapKeys m).Nodup) (h : mapHas m k = true) :
    (mapDelete m k).length + 1 = m.length := by
  induction m with
  | nil => simp [mapHas, mapGet] at h
  | cons p rest ih =>
    rw [mapKeys, List.map_cons, List.nodup_cons] at hnd
    rw [mapHas, mapGet_cons] at h
    by_cases hp : p.1 = k
    · rw [mapDelete_cons_of_eq hp]
      have hrest : mapHas rest k = false := by
        by_contra hc
        have : mapHas rest k = true := by
          cases hb : mapHas rest k
          · exact absurd hb hc
          · rfl
        rw [mapHas_iff_mem_keys] at this
        exact hnd.1 (hp ▸ this)
      rw [mapDelete_eq_self_of_not_has hrest]
      simp
    · rw [if_neg hp] at h
      rw [mapDelete_cons_of_ne hp, List.length_cons, List.length_cons,
        ih hnd.2 (by simpa [mapHas] using h)]

end MapLemmas

/-! ### Arithmetic facts about the confidence operations -/

/-- All four dimensions lie in `[0,1]`. -/
def ConfidenceVector.inUnitInterval (c : ConfidenceVector) : Prop :=
  0 ≤ c.empirical_support ∧ c.empirical_support ≤ 1 ∧
  0 ≤ c.theoretical_basis ∧ c.theoretical_basis ≤ 1 ∧
  0 ≤ c.methodological_rigor ∧ c.methodological_rigor ≤ 1 ∧
  0 ≤ c.consensus_alignment ∧ c.consensus_alignment ≤ 1

theorem unit_mul_le_one {a f : ℚ} (ha0 : 0 ≤ a) (ha1 : a ≤ 1) (hf0 : 0 ≤ f)
    (hf1 : f ≤ 1) : 0 ≤ a * f ∧ a * f ≤ 1 :=
  ⟨mul_nonneg ha0 hf0, by nlinarith⟩

/-- With likelihood equal to the prior and reliability `1`, each dimension
moves to `(20 p + 1) / 22` (the clamp is inactive on `[0,1]`). -/
theorem updateDimension_self (p : ℚ) (h0 : 0 ≤ p) (h1 : p ≤ 1) :
    BayesianUpdater.updateDimension p p 1 = (20 * p + 1) / 22 := by
  show max 0 (min 1 ((p * 10 + 1 + p * 1 * 10) /
      (p * 10 + 1 + p * 1 * 10 + ((1 - p) * 10 + 1 + (1 - p * 1) * 10)))) =
    (20 * p + 1) / 22
  have hden : p * 10 + 1 + p * 1 * 10 + ((1 - p) * 10 + 1 + (1 - p * 1) * 10)
      = 22 := by ring
  have hnum : p * 10 + 1 + p * 1 * 10 = 20 * p + 1 := by ring
  rw [hden, hnum]
  have hle : (20 * p + 1) / 22 ≤ 1 := by
    rw [div_le_one (by norm_num : (0:ℚ) < 22)]
    linarith
  have hge : (0:ℚ) ≤ (20 * p + 1) / 22 :=
    div_nonneg (by linarith) (by norm_num)
  rw [min_eq_right hle, max_eq_right hge]

theorem updateConfidence_self (f : ℚ → ℚ) (c : ConfidenceVector)
    (h0 : c.inUnitInterval) :
    BayesianUpdater.updateConfidence f c c
      (some { reliability := 1, statistical_power := none }) =
    { empirical_support := (20 * c.empirical_support + 1) / 22
      theoretical_basis := (20 * c.theoretical_basis + 1) / 22
      methodological_rigor := (20 * c.methodological_rigor + 1) / 22
      consensus_alignment := (20 * c.consensus_alignment + 1) / 22 } := by
  obtain ⟨ha0, ha1, hb0, hb1, hc0, hc1, hd0, hd1⟩ := h0
  show ConfidenceVector.mk
      (BayesianUpdater.updateDimension c.empirical_support c.empirical_support
        (jsOrNum (some (1:ℚ)) (1/2)))
      (BayesianUpdater.updateDimension c.theoretical_basis c.theoretical_basis
        (jsOrNum (some (1:ℚ)) (1/2)))
      (BayesianUpdater.updateDimension c.methodological_rigor c.methodological_rigor
        (jsOrNum (some (1:ℚ)) (1/2)))
      (BayesianUpdater.updateDimension c.consensus_alignment c.consensus_alignment
        (jsOrNum (some (1:ℚ)) (1/2))) = _
  have hrel : jsOrNum (some (1:ℚ)) (1/2) = 1 := by norm_num [jsOrNum]
  rw [hrel, updateDimension_self _ ha0 ha1, updateDimension_self _ hb0 hb1,
    updateDimension_self _ hc0 hc1, updateDimension_self _ hd0 hd1]

theorem aggregate_diff_bound {a b c d : ℚ} (ha0 : 0 ≤ a) (ha1 : a ≤ 1)
    (hb0 : 0 ≤ b) (hb1 : b ≤ 1) (hc0 : 0 ≤ c) (hc1 : c ≤ 1)
    (hd0 : 0 ≤ d) (hd1 : d ≤ 1) :
    |((20 * a + 1) / 22 + (20 * b + 1) / 22 + (20 * c + 1) / 22 +
        (20 * d + 1) / 22) / 4 - (a + b + c + d) / 4| ≤ 1 / 22 := by
  rw [abs_le]
  constructor <;> linarith

/-! ### Claim C9 — `propagateUncertainty` -/

/-- C9 (counterexample): the claim asserts the result lies in `[0,1]` for
*every* real `edgeReliability`; at source `⟨1,1,1,1⟩` (all dimensions in
`[0,1]`) and `edgeReliability = 2` the result dimension is `2`, which
violates the claimed bound — `propagateUncertainty` never clamps above `1`. -/
theorem C9_counterexample_not_clamped :
    ConfidenceVector.inUnitInterval ⟨1, 1, 1, 1⟩ ∧
    (BayesianUpdater.propagateUncertainty ⟨1, 1, 1, 1⟩ 2).empirical_support = 2 ∧
    ¬ ((BayesianUpdater.propagateUncertainty ⟨1, 1, 1, 1⟩ 2).empirical_support ≤ 1) := by
  have hmax : max (1/10 : ℚ) 2 = 2 := max_eq_right (by norm_num)
  refine ⟨?_, ?_, ?_⟩
  · refine ⟨by norm_num, by norm_num, by norm_num, by norm_num, by norm_num,
      by norm_num, by norm_num, by norm_num⟩
  · show (1:ℚ) * max (1/10) 2 = 2
    rw [hmax]; norm_num
  · show ¬ ((1:ℚ) * max (1/10) 2 ≤ 1)
    rw [hmax]; norm_num

/-- C9 (amended): `propagateUncertainty` is a pure total function; each
dimension of the result equals the source dimension multiplied by
`max(edgeReliability, 0.1)` for every real `edgeReliability`, and the result
lies in `[0,1]` whenever the source does and `edgeReliability ≤ 1` (for
reliabilities above `1`, no clamping is applied and the result can leave
`[0,1]`). -/
theorem C9_propagateUncertainty_spec (source : ConfidenceVector)
    (edgeReliability : ℚ) (hsrc : source.inUnitInterval)
    (hr : edgeReliability ≤ 1) :
    BayesianUpdater.propagateUncertainty source edgeReliability =
      { empirical_support := source.empirical_support * max (1/10) edgeReliability
        theoretical_basis := source.theoretical_basis * max (1/10) edgeReliability
        methodological_rigor :=
          source.methodological_rigor * max (1/10) edgeReliability
        consensus_alignment :=
          source.consensus_alignment * max (1/10) edgeReliability } ∧
    (BayesianUpdater.propagateUncertainty source edgeReliability).inUnitInterval := by
  obtain ⟨ha0, ha1, hb0, hb1, hc0, hc1, hd0, hd1⟩ := hsrc
  have hf0 : (0:ℚ) ≤ max (1/10) edgeReliability :=
    le_trans (by norm_num) (le_max_left _ _)
  have hf1 : max (1/10 : ℚ) edgeReliability ≤ 1 := max_le (by norm_num) hr
  refine ⟨rfl, ?_⟩
  exact ⟨(unit_mul_le_one ha0 ha1 hf0 hf1).1, (unit_mul_le_one ha0 ha1 hf0 hf1).2,
    (unit_mul_le_one hb0 hb1 hf0 hf1).1, (unit_mul_le_one hb0 hb1 hf0 hf1).2,
    (unit_mul_le_one hc0 hc1 hf0 hf1).1, (unit_mul_le_one hc0 hc1 hf0 hf1).2,
    (unit_mul_le_one hd0 hd1 hf0 hf1).1, (unit_mul_le_one hd0 hd1 hf0 hf1).2⟩

/-- Witness for C9's amended theorem at a concrete input. -/
theorem C9_propagateUncertainty_spec_witness :
    ConfidenceVector.inUnitInterval ⟨1/2, 1/4, 1, 0⟩ ∧ (3/4 : ℚ) ≤ 1 ∧
    (BayesianUpdater.propagateUncertainty ⟨1/2, 1/4, 1, 0⟩ (3/4)).inUnitInterval := by
  have h : ConfidenceVector.inUnitInterval ⟨1/2, 1/4, 1, 0⟩ := by
    refine ⟨by norm_num, by norm_num, by norm_num, by norm_num, by norm_num,
      by norm_num, by norm_num, by norm_num⟩
  exact ⟨h, by norm_num,
    (C9_propagateUncertainty_spec ⟨1/2, 1/4, 1, 0⟩ (3/4) h (by norm_num)).2⟩

/-! ### Claim C6 — neutral Bayesian update -/

/-- C6: for an existing node whose prior confidence lies in `[0,1]`,
`updateNodeConfidence` with a likelihood equal to the prior, evidence
reliability `1.0` and no statistical-power record returns `true` and moves
the aggregate (4-dimension mean) confidence by at most `1/22 < 0.05`:
each dimension moves to `(20·p + 1)/22`, so the aggregate moves by
`|1 − 2·agg|/22 ≤ 1/22`. -/
theorem C6_updateNodeConfidence_aggregate_stable (f : ℚ → ℚ)
    (s : ASRGoTGraphState) (nid : String) (node : GraphNode)
    (hmem : mapGet s.vertices nid = some node)
    (hunit : node.metadata.confidence.inUnitInterval) :
    (ASRGoTGraph.updateNodeConfidence f s nid node.metadata.confidence
      (some { reliability := 1, statistical_power := none })).1 = true ∧
    ∃ node',
      mapGet (ASRGoTGraph.updateNodeConfidence f s nid node.metadata.confidence
        (some { reliability := 1, statistical_power := none })).2.vertices nid =
        some node' ∧
      |ASRGoTGraph.getAverageConfidence node'.metadata.confidence -
        ASRGoTGraph.getAverageConfidence node.metadata.confidence| ≤ 1/22 := by
  obtain ⟨ha0, ha1, hb0, hb1, hc0, hc1, hd0, hd1⟩ := hunit
  unfold ASRGoTGraph.updateNodeConfidence
  rw [hmem]
  refine ⟨rfl, ?_⟩
  dsimp only
  rw [mapGet_mapSet_self]
  refine ⟨_, rfl, ?_⟩
  dsimp only
  rw [updateConfidence_self f node.metadata.confidence
    ⟨ha0, ha1, hb0, hb1, hc0, hc1, hd0, hd1⟩]
  unfold ASRGoTGraph.getAverageConfidence
  exact aggregate_diff_bound ha0 ha1 hb0 hb1 hc0 hc1 hd0 hd1

/-- A concrete hypothesis node used by witnesses. -/
def c6Node : GraphNode :=
  { id := "n1"
    metadata :=
      { node_id := "n1", label := "H1", type := NodeType.hypothesis
        provenance := "test", confidence := ⟨4/5, 3/5, 1/2, 7/10⟩
        epistemic_status := "hypothetical", disciplinary_tags := ["biology"]
        bias_flags := [], revision_history := ["Node created"]
        impact_score := 1/2, layer_id := none
        falsification_criteria := none, statistical_power := none } }

def c6State : ASRGoTGraphState :=
  { emptyGraphState with vertices := [("n1", c6Node)] }

/-- Witness for C6 at a concrete store. -/
theorem C6_updateNodeConfidence_aggregate_stable_witness :
    mapGet c6State.vertices "n1" = some c6Node ∧
    c6Node.metadata.confidence.inUnitInterval ∧
    ((ASRGoTGraph.updateNodeConfidence (fun q => q) c6State "n1"
        c6Node.metadata.confidence
        (some { reliability := 1, statistical_power := none })).1 = true ∧
      ∃ node',
        mapGet (ASRGoTGraph.updateNodeConfidence (fun q => q) c6State "n1"
          c6Node.metadata.confidence
          (some { reliability := 1, statistical_power := none })).2.vertices "n1" =
          some node' ∧
        |ASRGoTGraph.getAverageConfidence node'.metadata.confidence -
          ASRGoTGraph.getAverageConfidence c6Node.metadata.confidence| ≤ 1/22) := by
  have hu : c6Node.metadata.confidence.inUnitInterval := by
    refine ⟨by norm_num [c6Node], by norm_num [c6Node], by norm_num [c6Node],
      by norm_num [c6Node], by norm_num [c6Node], by norm_num [c6Node],
      by norm_num [c6Node], by norm_num [c6Node]⟩
  exact ⟨rfl, hu,
    C6_updateNodeConfidence_aggregate_stable (fun q => q) c6State "n1" c6Node rfl hu⟩

/-! ### Further map lemmas -/

section MapLemmas2

variable {κ α : Type} [DecidableEq κ]

theorem mapHas_mapSet_of_has {m : List (κ × α)} {k' : κ} (k : κ) (v : α)
    (h : mapHas m k' = true) : mapHas (mapSet m k v) k' = true := by
  rw [mapHas_mapSet]
  by_cases hk : k' = k
  · rw [if_pos hk]
  · rw [if_neg hk]; exact h

theorem mem_mapSet {m : List (κ × α)} {k : κ} {v : α} {p : κ × α}
    (h : p ∈ mapSet m k v) : p ∈ m ∨ p = (k, v) := by
  induction m with
  | nil =>
    right
    simpa [mapSet] using h
  | cons q rest ih =>
    by_cases hq : q.1 = k
    · simp only [mapSet, if_pos hq] at h
      rcases List.mem_cons.mp h with h1 | h1
      · right; exact h1
      · left; exact List.mem_cons_of_mem _ h1
    · simp only [mapSet, if_neg hq] at h
      rcases List.mem_cons.mp h with h1 | h1
      · left; rw [h1]; exact List.mem_cons_self q rest
      · rcases ih h1 with h2 | h2
        · left; exact List.mem_cons_of_mem _ h2
        · right; exact h2

end MapLemmas2

/-! ### Structural lemmas about the graph operations -/

namespace ASRGoTGraph

theorem addNodeState_vertices (s : ASRGoTGraphState) (m : NodeMetadataIn)
    (node : GraphNode) :
    (addNodeState s m node).vertices = mapSet s.vertices node.id node := by
  unfold addNodeState
  cases m.layer_id with
  | none => rfl
  | some lid =>
    dsimp only
    split <;> rfl

theorem addNodeState_edges (s : ASRGoTGraphState) (m : NodeMetadataIn)
    (node : GraphNode) : (addNodeState s m node).edges = s.edges := by
  unfold addNodeState
  cases m.layer_id with
  | none => rfl
  | some lid =>
    dsimp only
    split <;> rfl

theorem addNodeState_hyperedges (s : ASRGoTGraphState) (m : NodeMetadataIn)
    (node : GraphNode) : (addNodeState s m node).hyperedges = s.hyperedges := by
  unfold addNodeState
  cases m.layer_id with
  | none => rfl
  | some lid =>
    dsimp only
    split <;> rfl

theorem addNode_ok_inv {s : ASRGoTGraphState} {m : NodeMetadataIn}
    {rid nid : String} {s' : ASRGoTGraphState}
    (h : addNode s m rid = Except.ok (nid, s')) :
    nid = addNodeId s m rid ∧
    s' = addNodeState s m (builtNode m nid) := by
  unfold addNode at h
  by_cases h0 : m.node_id = ""
  · rw [if_pos h0] at h; simp at h
  · rw [if_neg h0] at h
    simp only [Except.ok.injEq, Prod.mk.injEq] at h
    refine ⟨h.1.symm, ?_⟩
    rw [← h.2, h.1]

theorem addNode_ok_of_ne {s : ASRGoTGraphState} {m : NodeMetadataIn}
    {rid : String} (h0 : ¬ m.node_id = "") :
    addNode s m rid =
      Except.ok (addNodeId s m rid,
        addNodeState s m (builtNode m (addNodeId s m rid))) := by
  unfold addNode
  rw [if_neg h0]

theorem addNodeId_of_fresh {s : ASRGoTGraphState} {m : NodeMetadataIn}
    {rid : String} (h : mapHas s.vertices m.node_id = false) :
    addNodeId s m rid = m.node_id := by
  unfold addNodeId
  rw [h]
  rfl

theorem addEdge_ok_inv {s : ASRGoTGraphState} {a b : String}
    {m : EdgeMetadataIn} {rid eid : String} {s' : ASRGoTGraphState}
    (h : addEdge s a b m rid = Except.ok (eid, s')) :
    mapHas s.vertices a = true ∧ mapHas s.vertices b = true ∧
    eid = addEdgeId s m rid ∧
    s' = { s with edges := mapSet s.edges eid (builtEdge a b m eid) } := by
  unfold addEdge at h
  by_cases h1 : (a = "" ∨ b = "" ∨ m.edge_id = "")
  · rw [if_pos h1] at h; simp at h
  · rw [if_neg h1] at h
    by_cases h2 : mapHas s.vertices a = false
    · rw [if_pos h2] at h; simp at h
    · rw [if_neg h2] at h
      by_cases h3 : mapHas s.vertices b = false
      · rw [if_pos h3] at h; simp at h
      · rw [if_neg h3] at h
        simp only [Except.ok.injEq, Prod.mk.injEq] at h
        refine ⟨by simpa using h2, by simpa using h3, h.1.symm, ?_⟩
        rw [← h.2, h.1]

theorem addEdge_ok_of {s : ASRGoTGraphState} {a b : String}
    {m : EdgeMetadataIn} {rid : String}
    (h1 : ¬ (a = "" ∨ b = "" ∨ m.edge_id = ""))
    (h2 : mapHas s.vertices a = true) (h3 : mapHas s.vertices b = true) :
    addEdge s a b m rid =
      Except.ok (addEdgeId s m rid,
        { s with
          edges := mapSet s.edges (addEdgeId s m rid)
            (builtEdge a b m (addEdgeId s m rid)) }) := by
  unfold addEdge
  rw [if_neg h1, if_neg (by simp [h2]), if_neg (by simp [h3])]

theorem updateNodeConfidence_edges (f : ℚ → ℚ) (s : ASRGoTGraphState)
    (nid : String) (c : ConfidenceVector) (ev : Option Evidence) :
    (updateNodeConfidence f s nid c ev).2.edges = s.edges := by
  unfold updateNodeConfidence
  cases mapGet s.vertices nid <;> rfl

theorem updateNodeConfidence_vertices_has (f : ℚ → ℚ) (s : ASRGoTGraphState)
    (nid : String) (c : ConfidenceVector) (ev : Option Evidence) (k : String) :
    mapHas (updateNodeConfidence f s nid c ev).2.vertices k =
      mapHas s.vertices k := by
  unfold updateNodeConfidence
  cases hg : mapGet s.vertices nid with
  | none => rfl
  | some node =>
    dsimp only
    rw [mapHas_mapSet]
    by_cases hk : k = nid
    · rw [if_pos hk, hk, mapHas, hg]; rfl
    · rw [if_neg hk]

theorem transferEdges_vertices (s : ASRGoTGraphState) (a b : String) :
    (transferEdges s a b).vertices = s.vertices := rfl

theorem removeNode_vertices (s : ASRGoTGraphState) (nid : String) :
    (removeNode s nid).vertices = mapDelete s.vertices nid := rfl

theorem removeNode_edges (s : ASRGoTGraphState) (nid : String) :
    (removeNode s nid).edges =
      s.edges.filter (fun p => ¬ (p.2.source = nid ∨ p.2.target = nid)) := rfl

/-- No dangling edges: every edge's endpoints are present in the vertex map. -/
def noDanglingEdges (s : ASRGoTGraphState) : Prop :=
  ∀ p ∈ s.edges,
    mapHas s.vertices p.2.source = true ∧ mapHas s.vertices p.2.target = true

theorem noDangling_removeNode {s : ASRGoTGraphState} (h : noDanglingEdges s)
    (nid : String) : noDanglingEdges (removeNode s nid) := by
  intro p hp
  rw [removeNode_edges] at hp
  rw [List.mem_filter] at hp
  obtain ⟨hpm, hcond⟩ := hp
  have hno : ¬ (p.2.source = nid ∨ p.2.target = nid) := by
    simpa using hcond
  push_neg at hno
  obtain ⟨hs, ht⟩ := h p hpm
  rw [removeNode_vertices]
  constructor
  · rw [mapHas_mapDelete, if_neg hno.1]; exact hs
  · rw [mapHas_mapDelete, if_neg hno.2]; exact ht

theorem noDangling_addNode {s : ASRGoTGraphState} {m : NodeMetadataIn}
    {rid nid : String} {s' : ASRGoTGraphState} (h : noDanglingEdges s)
    (hok : addNode s m rid = Except.ok (nid, s')) : noDanglingEdges s' := by
  obtain ⟨hid, hst⟩ := addNode_ok_inv hok
  intro p hp
  rw [hst, addNodeState_edges] at hp
  obtain ⟨hs, ht⟩ := h p hp
  rw [hst, addNodeState_vertices]
  exact ⟨mapHas_mapSet_of_has _ _ hs, mapHas_mapSet_of_has _ _ ht⟩

theorem noDangling_addEdge {s : ASRGoTGraphState} {a b : String}
    {m : EdgeMetadataIn} {rid eid : String} {s' : ASRGoTGraphState}
    (h : noDanglingEdges s)
    (hok : addEdge s a b m rid = Except.ok (eid, s')) : noDanglingEdges s' := by
  obtain ⟨ha, hb, hid, hst⟩ := addEdge_ok_inv hok
  intro p hp
  rw [hst] at hp
  dsimp only at hp
  rcases mem_mapSet hp with hold | hnew
  · obtain ⟨hs, ht⟩ := h p hold
    rw [hst]
    exact ⟨hs, ht⟩
  · rw [hst]
    rw [hnew]
    exact ⟨ha, hb⟩

theorem noDangling_updateNodeConfidence (f : ℚ → ℚ) {s : ASRGoTGraphState}
    (h : noDanglingEdges s) (nid : String) (c : ConfidenceVector)
    (ev : Option Evidence) :
    noDanglingEdges (updateNodeConfidence f s nid c ev).2 := by
  intro p hp
  rw [updateNodeConfidence_edges] at hp
  obtain ⟨hs, ht⟩ := h p hp
  rw [updateNodeConfidence_vertices_has, updateNodeConfidence_vertices_has]
  exact ⟨hs, ht⟩

theorem noDangling_transferEdges {s : ASRGoTGraphState} (h : noDanglingEdges s)
    {toId : String} (fromId : String)
    (hto : mapHas s.vertices toId = true) :
    noDanglingEdges (transferEdges s fromId toId) := by
  intro p hp
  obtain ⟨q, hq, hfq⟩ :
      ∃ q ∈ s.edges, transferEdge fromId toId q = p := by
    simpa [transferEdges, List.mem_map] using hp
  obtain ⟨hqs, hqt⟩ := h q hq
  rw [transferEdges_vertices, ← hfq]
  unfold transferEdge
  by_cases h1 : q.2.source = fromId
  · rw [if_pos h1]
    exact ⟨hto, hqt⟩
  · rw [if_neg h1]
    by_cases h2 : q.2.target = fromId
    · rw [if_pos h2]
      exact ⟨hqs, hto⟩
    · rw [if_neg h2]
      exact ⟨hqs, hqt⟩

theorem noDangling_pruneFold (c i : ℚ) (l : List (String × GraphNode)) :
    ∀ acc : List String × ASRGoTGraphState, noDanglingEdges acc.2 →
      noDanglingEdges (l.foldl (pruneStep c i) acc).2 := by
  induction l with
  | nil => intro acc h; exact h
  | cons p rest ih =>
    intro acc h
    rw [List.foldl_cons]
    apply ih
    simp only [pruneStep]
    split
    · exact noDangling_removeNode h p.1
    · exact h

theorem noDangling_pruneNodes {s : ASRGoTGraphState} (h : noDanglingEdges s)
    (c i : ℚ) : noDanglingEdges (pruneNodes s c i).2 :=
  noDangling_pruneFold c i s.vertices ([], s) h

theorem noDangling_mergeNodes {s : ASRGoTGraphState} {a b : String}
    {ov : ℚ} {mid rid : String} {r : Option String} {s' : ASRGoTGraphState}
    (h : noDanglingEdges s)
    (hok : mergeNodes s a b ov mid rid = Except.ok (r, s')) :
    noDanglingEdges s' := by
  unfold mergeNodes at hok
  by_cases hov : ov < 8/10
  · rw [if_pos hov] at hok
    simp only [Except.ok.injEq, Prod.mk.injEq] at hok
    rw [← hok.2]
    exact h
  · rw [if_neg hov] at hok
    cases hga : mapGet s.vertices a with
    | none =>
      cases hgb : mapGet s.vertices b with
      | none =>
        simp only [hga, hgb, Except.ok.injEq, Prod.mk.injEq] at hok
        rw [← hok.2]; exact h
      | some nb =>
        simp only [hga, hgb, Except.ok.injEq, Prod.mk.injEq] at hok
        rw [← hok.2]; exact h
    | some na =>
      cases hgb : mapGet s.vertices b with
      | none =>
        simp only [hga, hgb, Except.ok.injEq, Prod.mk.injEq] at hok
        rw [← hok.2]; exact h
      | some nb =>
        simp only [hga, hgb] at hok
        cases hadd : addNode s (mergedMetadata na nb a b mid) rid with
        | error e => simp [hadd] at hok
        | ok pr =>
          obtain ⟨mId, s1⟩ := pr
          simp only [hadd, Except.ok.injEq, Prod.mk.injEq] at hok
          rw [← hok.2]
          have h1 : noDanglingEdges s1 := noDangling_addNode h hadd
          obtain ⟨hid, hst⟩ := addNode_ok_inv hadd
          have hmid : mapHas s1.vertices mId = true := by
            rw [hst, addNodeState_vertices]
            have hbid : (builtNode (mergedMetadata na nb a b mid) mId).id = mId := rfl
            rw [hbid, mapHas_mapSet, if_pos rfl]
          have h2 : noDanglingEdges (transferEdges s1 a mId) :=
            noDangling_transferEdges h1 a hmid
          have h3 : noDanglingEdges
              (transferEdges (transferEdges s1 a mId) b mId) :=
            noDangling_transferEdges h2 b
              (by rw [transferEdges_vertices]; exact hmid)
          exact noDangling_removeNode (noDangling_removeNode h3 a) b

theorem noDangling_createIBN {s : ASRGoTGraphState} (h : noDanglingEdges s)
    (a b : String) (sim : ℚ) (ids : IBNIds) :
    noDanglingEdges (createIBN s a b sim ids).2 := by
  unfold createIBN
  cases hga : mapGet s.vertices a with
  | none =>
    cases hgb : mapGet s.vertices b with
    | none => exact h
    | some nb => exact h
  | some na =>
    cases hgb : mapGet s.vertices b with
    | none => exact h
    | some nb =>
      dsimp only
      split
      · exact h
      · cases hadd : addNode s (ibnMetadata na nb a b ids.nodeId)
            ids.nodeRegen with
        | error e => exact h
        | ok pr =>
          obtain ⟨ibnId, s1⟩ := pr
          dsimp only
          have h1 : noDanglingEdges s1 := noDangling_addNode h hadd
          cases he1 : addEdge s1 a ibnId
              { edge_id := ids.edge1Id, edge_type := EdgeType.other
                confidence := some na.metadata.confidence } ids.edge1Regen with
          | error e => exact h1
          | ok pr2 =>
            obtain ⟨e1, s2⟩ := pr2
            dsimp only
            have h2 : noDanglingEdges s2 := noDangling_addEdge h1 he1
            cases he2 : addEdge s2 ibnId b
                { edge_id := ids.edge2Id, edge_type := EdgeType.other
                  confidence := some nb.metadata.confidence } ids.edge2Regen with
            | error e => exact h2
            | ok pr3 =>
              obtain ⟨e2, s3⟩ := pr3
              exact noDangling_addEdge h2 he2

end ASRGoTGraph

/-! ### Claim C2 — no dangling edges -/

/-- C2: starting from a store with no dangling edges, every successful
public Graph Store call — `addNode`, `addEdge`, `updateNodeConfidence`,
`createIBN`, `pruneNodes`, `mergeNodes`, `removeNode` — returns a store in
which every edge's source and target ids are present in the vertex map. -/
theorem C2_no_dangling_after_public_calls (s : ASRGoTGraphState)
    (h : ASRGoTGraph.noDanglingEdges s) :
    (∀ m rid nid s', ASRGoTGraph.addNode s m rid = Except.ok (nid, s') →
      ASRGoTGraph.noDanglingEdges s') ∧
    (∀ a b m rid eid s',
      ASRGoTGraph.addEdge s a b m rid = Except.ok (eid, s') →
      ASRGoTGraph.noDanglingEdges s') ∧
    (∀ f nid c ev,
      ASRGoTGraph.noDanglingEdges
        (ASRGoTGraph.updateNodeConfidence f s nid c ev).2) ∧
    (∀ a b sim ids,
      ASRGoTGraph.noDanglingEdges (ASRGoTGraph.createIBN s a b sim ids).2) ∧
    (∀ c i, ASRGoTGraph.noDanglingEdges (ASRGoTGraph.pruneNodes s c i).2) ∧
    (∀ a b ov mid rid r s',
      ASRGoTGraph.mergeNodes s a b ov mid rid = Except.ok (r, s') →
      ASRGoTGraph.noDanglingEdges s') ∧
    (∀ nid, ASRGoTGraph.noDanglingEdges (ASRGoTGraph.removeNode s nid)) :=
  ⟨fun _ _ _ _ hok => ASRGoTGraph.noDangling_addNode h hok,
   fun _ _ _ _ _ _ hok => ASRGoTGraph.noDangling_addEdge h hok,
   fun f nid c ev => ASRGoTGraph.noDangling_updateNodeConfidence f h nid c ev,
   fun a b sim ids => ASRGoTGraph.noDangling_createIBN h a b sim ids,
   fun c i => ASRGoTGraph.noDangling_pruneNodes h c i,
   fun _ _ _ _ _ _ _ hok => ASRGoTGraph.noDangling_mergeNodes h hok,
   fun nid => ASRGoTGraph.noDangling_removeNode h nid⟩

/-- Witness for C2 at the concrete empty store. -/
theorem C2_no_dangling_after_public_calls_witness :
    ASRGoTGraph.noDanglingEdges emptyGraphState ∧
    ((∀ m rid nid s',
        ASRGoTGraph.addNode emptyGraphState m rid = Except.ok (nid, s') →
        ASRGoTGraph.noDanglingEdges s') ∧
      (∀ a b m rid eid s',
        ASRGoTGraph.addEdge emptyGraphState a b m rid = Except.ok (eid, s') →
        ASRGoTGraph.noDanglingEdges s') ∧
      (∀ f nid c ev,
        ASRGoTGraph.noDanglingEdges
          (ASRGoTGraph.updateNodeConfidence f emptyGraphState nid c ev).2) ∧
      (∀ a b sim ids,
        ASRGoTGraph.noDanglingEdges
          (ASRGoTGraph.createIBN emptyGraphState a b sim ids).2) ∧
      (∀ c i,
        ASRGoTGraph.noDanglingEdges
          (ASRGoTGraph.pruneNodes emptyGraphState c i).2) ∧
      (∀ a b ov mid rid r s',
        ASRGoTGraph.mergeNodes emptyGraphState a b ov mid rid =
          Except.ok (r, s') →
        ASRGoTGraph.noDanglingEdges s') ∧
      (∀ nid,
        ASRGoTGraph.noDanglingEdges
          (ASRGoTGraph.removeNode emptyGraphState nid))) :=
  have hempty : ASRGoTGraph.noDanglingEdges emptyGraphState := by
    intro p hp
    exact absurd hp (List.not_mem_nil p)
  ⟨hempty, C2_no_dangling_after_public_calls emptyGraphState hempty⟩

/-! ### Claim C4 — pruning characterisation -/

namespace ASRGoTGraph

/-- Repeated `removeNode` (the effect of one pass of the pruning loop). -/
def removeAllNodes (s : ASRGoTGraphState) (ids : List String) :
    ASRGoTGraphState :=
  ids.foldl removeNode s

theorem removeAllNodes_cons (s : ASRGoTGraphState) (x : String)
    (ids : List String) :
    removeAllNodes s (x :: ids) = removeAllNodes (removeNode s x) ids := rfl

theorem removeAllNodes_edges_mem (ids : List String) :
    ∀ (s : ASRGoTGraphState) (q : String × GraphEdge),
      q ∈ (removeAllNodes s ids).edges ↔
        (q ∈ s.edges ∧ q.2.source ∉ ids ∧ q.2.target ∉ ids) := by
  induction ids with
  | nil =>
    intro s q
    simp [removeAllNodes]
  | cons x rest ih =>
    intro s q
    rw [removeAllNodes_cons, ih, removeNode_edges, List.mem_filter]
    simp only [List.mem_cons, not_or, decide_not, Bool.not_eq_false',
      decide_eq_true_eq, not_or]
    constructor
    · rintro ⟨⟨hq, hno⟩, hs, ht⟩
      push_neg at hno
      exact ⟨hq, ⟨hno.1, hs⟩, ⟨hno.2, ht⟩⟩
    · rintro ⟨hq, ⟨hsx, hs⟩, ⟨htx, ht⟩⟩
      refine ⟨⟨hq, ?_⟩, hs, ht⟩
      push_neg
      exact ⟨hsx, htx⟩

theorem removeAllNodes_vertices_has (ids : List String) :
    ∀ (s : ASRGoTGraphState) (k : String),
      mapHas (removeAllNodes s ids).vertices k =
        if k ∈ ids then false else mapHas s.vertices k := by
  induction ids with
  | nil => intro s k; simp [removeAllNodes]
  | cons x rest ih =>
    intro s k
    rw [removeAllNodes_cons, ih, removeNode_vertices, mapHas_mapDelete]
    by_cases h1 : k ∈ rest
    · simp [h1]
    · by_cases h2 : k = x <;> simp [h1, h2]

/-- Values under a duplicate-free key are unique. -/
theorem nodup_keys_eq {κ α : Type} [DecidableEq κ] {m : List (κ × α)}
    (hnd : (mapKeys m).Nodup) {k : κ} {v v' : α}
    (h1 : (k, v) ∈ m) (h2 : (k, v') ∈ m) : v = v' := by
  induction m with
  | nil => cases h1
  | cons p rest ih =>
    rw [mapKeys, List.map_cons, List.nodup_cons] at hnd
    rcases List.mem_cons.mp h1 with e1 | m1
    · rcases List.mem_cons.mp h2 with e2 | m2
      · rw [← e1] at e2
        exact (Prod.mk.injEq _ _ _ _ ▸ e2).2.symm ▸ rfl
      · exfalso
        apply hnd.1
        have hk : k ∈ List.map Prod.fst rest := List.mem_map_of_mem Prod.fst m2
        rw [← e1]
        exact hk
    · rcases List.mem_cons.mp h2 with e2 | m2
      · exfalso
        apply hnd.1
        have hk : k ∈ List.map Prod.fst rest := List.mem_map_of_mem Prod.fst m1
        rw [← e2]
        exact hk
      · exact ih hnd.2 m1 m2

/-- The pruning fold computed in closed form. -/
theorem prune_foldl_spec (c i : ℚ) (l : List (String × GraphNode)) :
    ∀ (pr : List String) (st : ASRGoTGraphState),
      l.foldl (pruneStep c i) (pr, st) =
        (pr ++ (l.filter (fun p =>
            decide (getAverageConfidence p.2.metadata.confidence < c ∧
              p.2.metadata.impact_score < i))).map Prod.fst,
          removeAllNodes st ((l.filter (fun p =>
            decide (getAverageConfidence p.2.metadata.confidence < c ∧
              p.2.metadata.impact_score < i))).map Prod.fst)) := by
  induction l with
  | nil =>
    intro pr st
    simp [removeAllNodes]
  | cons p rest ih =>
    intro pr st
    rw [List.foldl_cons, List.filter_cons]
    cases hcb : decide (getAverageConfidence p.2.metadata.confidence < c ∧
        p.2.metadata.impact_score < i) with
    | true =>
      have hc := of_decide_eq_true hcb
      have hstep : pruneStep c i (pr, st) p = (pr ++ [p.1], removeNode st p.1) := by
        simp only [pruneStep]
        rw [if_pos hc]
      rw [hstep, ih]
      simp [removeAllNodes_cons]
    | false =>
      have hc := of_decide_eq_false hcb
      have hstep : pruneStep c i (pr, st) p = (pr, st) := by
        simp only [pruneStep]
        rw [if_neg hc]
      rw [hstep, ih]
      simp

theorem pruneNodes_eq (s : ASRGoTGraphState) (c i : ℚ) :
    pruneNodes s c i =
      ((s.vertices.filter (fun p =>
          decide (getAverageConfidence p.2.metadata.confidence < c ∧
            p.2.metadata.impact_score < i))).map Prod.fst,
        removeAllNodes s ((s.vertices.filter (fun p =>
          decide (getAverageConfidence p.2.metadata.confidence < c ∧
            p.2.metadata.impact_score < i))).map Prod.fst)) := by
  unfold pruneNodes
  rw [prune_foldl_spec]
  simp

end ASRGoTGraph

/-- C4: `pruneNodes(c, i)` removes a node iff BOTH its aggregate
(dimension-average) confidence is strictly below `c` AND its impact score is
strictly below `i` (conjunctive), and removal cascades to all incident
edges: an edge survives iff neither endpoint was pruned. -/
theorem C4_pruneNodes_spec (s : ASRGoTGraphState) (c i : ℚ)
    (hnd : (mapKeys s.vertices).Nodup) :
    (∀ nid n, (nid, n) ∈ s.vertices →
      (nid ∈ (ASRGoTGraph.pruneNodes s c i).1 ↔
        (ASRGoTGraph.getAverageConfidence n.metadata.confidence < c ∧
          n.metadata.impact_score < i))) ∧
    (∀ nid, mapHas (ASRGoTGraph.pruneNodes s c i).2.vertices nid = true ↔
      (mapHas s.vertices nid = true ∧ nid ∉ (ASRGoTGraph.pruneNodes s c i).1)) ∧
    (∀ q, q ∈ (ASRGoTGraph.pruneNodes s c i).2.edges ↔
      (q ∈ s.edges ∧ q.2.source ∉ (ASRGoTGraph.pruneNodes s c i).1 ∧
        q.2.target ∉ (ASRGoTGraph.pruneNodes s c i).1)) := by
  rw [ASRGoTGraph.pruneNodes_eq]
  dsimp only
  refine ⟨?_, ?_, ?_⟩
  · intro nid n hmem
    constructor
    · intro hin
      obtain ⟨q, hq, hqk⟩ := List.mem_map.mp hin
      obtain ⟨hqmem, hqc⟩ := List.mem_filter.mp hq
      have hcond := of_decide_eq_true hqc
      have : q = (nid, q.2) := by
        rw [← hqk]
      rw [this] at hqmem
      have := ASRGoTGraph.nodup_keys_eq hnd hqmem hmem
      rw [this] at hcond
      exact hcond
    · intro hcond
      apply List.mem_map.mpr
      refine ⟨(nid, n), List.mem_filter.mpr ⟨hmem, decide_eq_true hcond⟩, rfl⟩
  · intro nid
    rw [ASRGoTGraph.removeAllNodes_vertices_has]
    by_cases hin : nid ∈ (s.vertices.filter (fun p =>
        decide (ASRGoTGraph.getAverageConfidence p.2.metadata.confidence < c ∧
          p.2.metadata.impact_score < i))).map Prod.fst
    · rw [if_pos hin]
      constructor
      · intro hf
        exact absurd hf (by decide)
      · rintro ⟨_, hno⟩
        exact absurd hin hno
    · rw [if_neg hin]
      constructor
      · intro hh
        exact ⟨hh, hin⟩
      · rintro ⟨hh, _⟩
        exact hh
  · intro q
    rw [ASRGoTGraph.removeAllNodes_edges_mem]

/-- A low-value node and a high-value node joined by an edge, for the C4
witness. -/
def c4Weak : GraphNode :=
  { id := "weak"
    metadata :=
      { node_id := "weak", label := "W", type := NodeType.hypothesis
        provenance := "test", confidence := ⟨1/10, 1/10, 1/10, 1/10⟩
        epistemic_status := "hypothetical", disciplinary_tags := ["x"]
        bias_flags := [], revision_history := ["Node created"]
        impact_score := 1/20, layer_id := none
        falsification_criteria := none, statistical_power := none } }

def c4Strong : GraphNode :=
  { id := "strong"
    metadata :=
      { node_id := "strong", label := "S", type := NodeType.evidence
        provenance := "test", confidence := ⟨9/10, 9/10, 9/10, 9/10⟩
        epistemic_status := "evidential", disciplinary_tags := ["x"]
        bias_flags := [], revision_history := ["Node created"]
        impact_score := 9/10, layer_id := none
        falsification_criteria := none, statistical_power := none } }

def c4Edge : GraphEdge :=
  { id := "e1", source := "weak", target := "strong"
    metadata :=
      { edge_id := "e1", edge_type := EdgeType.supportive
        confidence := ⟨1/2, 1/2, 1/2, 1/2⟩ } }

def c4State : ASRGoTGraphState :=
  { emptyGraphState with
    vertices := [("weak", c4Weak), ("strong", c4Strong)]
    edges := [("e1", c4Edge)] }

/-- Witness for C4 at a concrete two-node store with thresholds `1/2`. -/
theorem C4_pruneNodes_spec_witness :
    (mapKeys c4State.vertices).Nodup ∧
    ((∀ nid n, (nid, n) ∈ c4State.vertices →
      (nid ∈ (ASRGoTGraph.pruneNodes c4State (1/2) (1/2)).1 ↔
        (ASRGoTGraph.getAverageConfidence n.metadata.confidence < 1/2 ∧
          n.metadata.impact_score < 1/2))) ∧
    (∀ nid,
      mapHas (ASRGoTGraph.pruneNodes c4State (1/2) (1/2)).2.vertices nid = true ↔
      (mapHas c4State.vertices nid = true ∧
        nid ∉ (ASRGoTGraph.pruneNodes c4State (1/2) (1/2)).1)) ∧
    (∀ q, q ∈ (ASRGoTGraph.pruneNodes c4State (1/2) (1/2)).2.edges ↔
      (q ∈ c4State.edges ∧
        q.2.source ∉ (ASRGoTGraph.pruneNodes c4State (1/2) (1/2)).1 ∧
        q.2.target ∉ (ASRGoTGraph.pruneNodes c4State (1/2) (1/2)).1))) :=
  ⟨by decide, C4_pruneNodes_spec c4State (1/2) (1/2) (by decide)⟩

/-! ### Claim C5 — interdisciplinary bridge synthesis -/

namespace ASRGoTGraph

/-- The bridge guard of `createIBN`, as a proposition. -/
theorem hasIntersection_iff (na nb : GraphNode) :
    (na.metadata.disciplinary_tags.any
      (fun tag => nb.metadata.disciplinary_tags.contains tag)) = true ↔
    ∃ t ∈ na.metadata.disciplinary_tags, t ∈ nb.metadata.disciplinary_tags := by
  simp [List.any_eq_true]

/-- `createIBN` computed in closed form on the success path (both nodes
present, disjoint tags, similarity above `0.5`, fresh non-empty uuids). -/
theorem createIBN_ok (s : ASRGoTGraphState) (a b : String)
    (na nb : GraphNode) (sim : ℚ) (ids : IBNIds)
    (ha : mapGet s.vertices a = some na)
    (hb : mapGet s.vertices b = some nb)
    (hanb : ¬ a = "") (hbnb : ¬ b = "")
    (hn0 : ¬ ids.nodeId = "") (hnf : mapHas s.vertices ids.nodeId = false)
    (he10 : ¬ ids.edge1Id = "") (he1f : mapHas s.edges ids.edge1Id = false)
    (he20 : ¬ ids.edge2Id = "") (he2f : mapHas s.edges ids.edge2Id = false)
    (he12 : ¬ ids.edge2Id = ids.edge1Id)
    (hnoshared : ¬ ∃ t ∈ na.metadata.disciplinary_tags,
      t ∈ nb.metadata.disciplinary_tags)
    (hsim : 1/2 < sim) :
    createIBN s a b sim ids =
      (some ids.nodeId,
        { addNodeState s (ibnMetadata na nb a b ids.nodeId)
            (builtNode (ibnMetadata na nb a b ids.nodeId) ids.nodeId) with
          edges :=
            mapSet (mapSet s.edges ids.edge1Id
                (builtEdge a ids.nodeId
                  ⟨ids.edge1Id, EdgeType.other, some na.metadata.confidence⟩
                  ids.edge1Id))
              ids.edge2Id
              (builtEdge ids.nodeId b
                ⟨ids.edge2Id, EdgeType.other, some nb.metadata.confidence⟩
                ids.edge2Id) }) := by
  have hintf : (na.metadata.disciplinary_tags.any
      (fun tag => nb.metadata.disciplinary_tags.contains tag)) = false := by
    rw [Bool.eq_false_iff]
    intro hc
    exact hnoshared ((hasIntersection_iff na nb).mp hc)
  have hmha : mapHas s.vertices a = true := by rw [mapHas, ha]; rfl
  have haddn := @addNode_ok_of_ne s (ibnMetadata na nb a b ids.nodeId)
    ids.nodeRegen (by exact hn0)
  have hid1 : addNodeId s (ibnMetadata na nb a b ids.nodeId) ids.nodeRegen =
      ids.nodeId := addNodeId_of_fresh (by exact hnf)
  rw [hid1] at haddn
  have hs1v : (addNodeState s (ibnMetadata na nb a b ids.nodeId)
      (builtNode (ibnMetadata na nb a b ids.nodeId) ids.nodeId)).vertices =
      mapSet s.vertices ids.nodeId
        (builtNode (ibnMetadata na nb a b ids.nodeId) ids.nodeId) :=
    addNodeState_vertices _ _ _
  have hs1e : (addNodeState s (ibnMetadata na nb a b ids.nodeId)
      (builtNode (ibnMetadata na nb a b ids.nodeId) ids.nodeId)).edges =
      s.edges := addNodeState_edges _ _ _
  have hv1a : mapHas (addNodeState s (ibnMetadata na nb a b ids.nodeId)
      (builtNode (ibnMetadata na nb a b ids.nodeId) ids.nodeId)).vertices a =
      true := by
    rw [hs1v]
    exact mapHas_mapSet_of_has _ _ hmha
  have hv1n : mapHas (addNodeState s (ibnMetadata na nb a b ids.nodeId)
      (builtNode (ibnMetadata na nb a b ids.nodeId) ids.nodeId)).vertices
      ids.nodeId = true := by
    rw [hs1v, mapHas_mapSet, if_pos rfl]
  have hv1b : mapHas (addNodeState s (ibnMetadata na nb a b ids.nodeId)
      (builtNode (ibnMetadata na nb a b ids.nodeId) ids.nodeId)).vertices b =
      true := by
    rw [hs1v]
    exact mapHas_mapSet_of_has _ _ (by rw [mapHas, hb]; rfl)
  have heid1 : addEdgeId (addNodeState s (ibnMetadata na nb a b ids.nodeId)
      (builtNode (ibnMetadata na nb a b ids.nodeId) ids.nodeId))
      ⟨ids.edge1Id, EdgeType.other, some na.metadata.confidence⟩
      ids.edge1Regen = ids.edge1Id := by
    unfold addEdgeId
    rw [show (⟨ids.edge1Id, EdgeType.other, some na.metadata.confidence⟩ :
      EdgeMetadataIn).edge_id = ids.edge1Id from rfl, hs1e, he1f]
    rfl
  have haddE1 := @addEdge_ok_of
    (addNodeState s (ibnMetadata na nb a b ids.nodeId)
      (builtNode (ibnMetadata na nb a b ids.nodeId) ids.nodeId))
    a ids.nodeId
    ⟨ids.edge1Id, EdgeType.other, some na.metadata.confidence⟩
    ids.edge1Regen
    (by
      push_neg
      exact ⟨hanb, hn0, he10⟩)
    hv1a hv1n
  rw [heid1] at haddE1
  unfold createIBN
  rw [ha, hb]
  dsimp only
  rw [if_neg (not_or.mpr ⟨by simpa using hnoshared, not_le.mpr hsim⟩), haddn]
  dsimp only
  rw [hs1e] at haddE1
  rw [haddE1]
  dsimp only
  have heid2 : addEdgeId
      { addNodeState s (ibnMetadata na nb a b ids.nodeId)
          (builtNode (ibnMetadata na nb a b ids.nodeId) ids.nodeId) with
        edges := mapSet s.edges ids.edge1Id
          (builtEdge a ids.nodeId
            ⟨ids.edge1Id, EdgeType.other, some na.metadata.confidence⟩
            ids.edge1Id) }
      ⟨ids.edge2Id, EdgeType.other, some nb.metadata.confidence⟩
      ids.edge2Regen = ids.edge2Id := by
    unfold addEdgeId
    rw [show (⟨ids.edge2Id, EdgeType.other, some nb.metadata.confidence⟩ :
      EdgeMetadataIn).edge_id = ids.edge2Id from rfl]
    dsimp only
    rw [mapHas_mapSet, if_neg he12, he2f]
    rfl
  have haddE2 := @addEdge_ok_of
    { addNodeState s (ibnMetadata na nb a b ids.nodeId)
        (builtNode (ibnMetadata na nb a b ids.nodeId) ids.nodeId) with
      edges := mapSet s.edges ids.edge1Id
        (builtEdge a ids.nodeId
          ⟨ids.edge1Id, EdgeType.other, some na.metadata.confidence⟩
          ids.edge1Id) }
    ids.nodeId b
    ⟨ids.edge2Id, EdgeType.other, some nb.metadata.confidence⟩
    ids.edge2Regen
    (by
      push_neg
      exact ⟨hn0, hbnb, he20⟩)
    (by dsimp only; exact hv1n)
    (by dsimp only; exact hv1b)
  rw [heid2] at haddE2
  rw [haddE2]

/-- `createIBN` null path: endpoints share a tag, or similarity at most `0.5`. -/
theorem createIBN_null (s : ASRGoTGraphState) (a b : String)
    (na nb : GraphNode) (sim : ℚ) (ids : IBNIds)
    (ha : mapGet s.vertices a = some na)
    (hb : mapGet s.vertices b = some nb)
    (hcase : (∃ t ∈ na.metadata.disciplinary_tags,
        t ∈ nb.metadata.disciplinary_tags) ∨ sim ≤ 1/2) :
    createIBN s a b sim ids = (none, s) := by
  unfold createIBN
  rw [ha, hb]
  dsimp only
  rw [if_pos (Or.imp (fun hex => (hasIntersection_iff na nb).mpr hex) id hcase)]

end ASRGoTGraph

/-- C5: for two existing nodes, `createIBN` returns `null` (and leaves the
store unchanged) when they share a disciplinary tag or the similarity is at
most `0.5`; otherwise it creates a Bridge node whose confidence is the
dimension-wise average of the endpoints' confidences and whose tag set is
the union of both tag sets, and appends exactly two edges typed `other`
connecting the source to the bridge and the bridge to the target.  The
uuid arguments are assumed fresh and non-empty. -/
theorem C5_createIBN_spec (s : ASRGoTGraphState) (a b : String)
    (na nb : GraphNode) (sim : ℚ) (ids : ASRGoTGraph.IBNIds)
    (ha : mapGet s.vertices a = some na)
    (hb : mapGet s.vertices b = some nb)
    (hanb : ¬ a = "") (hbnb : ¬ b = "")
    (hn0 : ¬ ids.nodeId = "") (hnf : mapHas s.vertices ids.nodeId = false)
    (he10 : ¬ ids.edge1Id = "") (he1f : mapHas s.edges ids.edge1Id = false)
    (he20 : ¬ ids.edge2Id = "") (he2f : mapHas s.edges ids.edge2Id = false)
    (he12 : ¬ ids.edge2Id = ids.edge1Id) :
    ((∃ t ∈ na.metadata.disciplinary_tags,
        t ∈ nb.metadata.disciplinary_tags) ∨ sim ≤ 1/2 →
      ASRGoTGraph.createIBN s a b sim ids = (none, s)) ∧
    ((¬ ∃ t ∈ na.metadata.disciplinary_tags,
        t ∈ nb.metadata.disciplinary_tags) → 1/2 < sim →
      ∃ bridge s',
        ASRGoTGraph.createIBN s a b sim ids = (some ids.nodeId, s') ∧
        mapGet s'.vertices ids.nodeId = some bridge ∧
        bridge.metadata.type = NodeType.ibn ∧
        bridge.metadata.confidence =
          ASRGoTGraph.averageConfidence na.metadata.confidence
            nb.metadata.confidence ∧
        (∀ t, t ∈ bridge.metadata.disciplinary_tags ↔
          (t ∈ na.metadata.disciplinary_tags ∨
            t ∈ nb.metadata.disciplinary_tags)) ∧
        s'.edges = s.edges ++
          [(ids.edge1Id, ASRGoTGraph.builtEdge a ids.nodeId
              ⟨ids.edge1Id, EdgeType.other, some na.metadata.confidence⟩
              ids.edge1Id),
            (ids.edge2Id, ASRGoTGraph.builtEdge ids.nodeId b
              ⟨ids.edge2Id, EdgeType.other, some nb.metadata.confidence⟩
              ids.edge2Id)] ∧
        (ASRGoTGraph.builtEdge a ids.nodeId
            ⟨ids.edge1Id, EdgeType.other, some na.metadata.confidence⟩
            ids.edge1Id).metadata.edge_type = EdgeType.other ∧
        (ASRGoTGraph.builtEdge ids.nodeId b
            ⟨ids.edge2Id, EdgeType.other, some nb.metadata.confidence⟩
            ids.edge2Id).metadata.edge_type = EdgeType.other) := by
  constructor
  · intro hcase
    exact ASRGoTGraph.createIBN_null s a b na nb sim ids ha hb hcase
  · intro hnoshared hsim
    refine ⟨ASRGoTGraph.builtNode
        (ASRGoTGraph.ibnMetadata na nb a b ids.nodeId) ids.nodeId, _,
      ASRGoTGraph.createIBN_ok s a b na nb sim ids ha hb hanb hbnb hn0 hnf
        he10 he1f he20 he2f he12 hnoshared hsim, ?_, rfl, rfl, ?_, ?_, rfl, rfl⟩
    · show mapGet (ASRGoTGraph.addNodeState s
          (ASRGoTGraph.ibnMetadata na nb a b ids.nodeId)
          (ASRGoTGraph.builtNode (ASRGoTGraph.ibnMetadata na nb a b ids.nodeId)
            ids.nodeId)).vertices ids.nodeId = _
      rw [ASRGoTGraph.addNodeState_vertices]
      exact mapGet_mapSet_self _ _ _
    · intro t
      show t ∈ na.metadata.disciplinary_tags ++ nb.metadata.disciplinary_tags ↔ _
      exact List.mem_append
    · show mapSet (mapSet s.edges ids.edge1Id _) ids.edge2Id _ = _
      rw [mapSet_eq_append_of_not_has s.edges ids.edge1Id _ he1f,
        mapSet_eq_append_of_not_has _ ids.edge2Id _ (by
          rw [← mapSet_eq_append_of_not_has s.edges ids.edge1Id _ he1f,
            mapHas_mapSet, if_neg he12]
          exact he2f)]
      simp

/-- Concrete disjoint-tag nodes for the C5 witness. -/
def c5NodeA : GraphNode :=
  { id := "a"
    metadata :=
      { node_id := "a", label := "A", type := NodeType.hypothesis
        provenance := "test", confidence := ⟨4/5, 2/5, 3/5, 1/5⟩
        epistemic_status := "hypothetical", disciplinary_tags := ["immunology"]
        bias_flags := [], revision_history := ["Node created"]
        impact_score := 3/5, layer_id := none
        falsification_criteria := none, statistical_power := none } }

def c5NodeB : GraphNode :=
  { id := "b"
    metadata :=
      { node_id := "b", label := "B", type := NodeType.hypothesis
        provenance := "test", confidence := ⟨2/5, 4/5, 1/5, 3/5⟩
        epistemic_status := "hypothetical", disciplinary_tags := ["dermatology"]
        bias_flags := [], revision_history := ["Node created"]
        impact_score := 4/5, layer_id := none
        falsification_criteria := none, statistical_power := none } }

def c5State : ASRGoTGraphState :=
  { emptyGraphState with vertices := [("a", c5NodeA), ("b", c5NodeB)] }

def c5Ids : ASRGoTGraph.IBNIds :=
  { nodeId := "ibn1", nodeRegen := "r1", edge1Id := "e1", edge1Regen := "r2"
    edge2Id := "e2", edge2Regen := "r3" }

/-- Witness for C5 at a concrete store (two disjoint-tag nodes,
similarity `0.9`). -/
theorem C5_createIBN_spec_witness :
    (mapGet c5State.vertices "a" = some c5NodeA ∧
      mapGet c5State.vertices "b" = some c5NodeB ∧
      ¬ "a" = "" ∧ ¬ "b" = "" ∧
      ¬ c5Ids.nodeId = "" ∧ mapHas c5State.vertices c5Ids.nodeId = false ∧
      ¬ c5Ids.edge1Id = "" ∧ mapHas c5State.edges c5Ids.edge1Id = false ∧
      ¬ c5Ids.edge2Id = "" ∧ mapHas c5State.edges c5Ids.edge2Id = false ∧
      ¬ c5Ids.edge2Id = c5Ids.edge1Id) ∧
    (((∃ t ∈ c5NodeA.metadata.disciplinary_tags,
        t ∈ c5NodeB.metadata.disciplinary_tags) ∨ (9/10 : ℚ) ≤ 1/2 →
      ASRGoTGraph.createIBN c5State "a" "b" (9/10) c5Ids = (none, c5State)) ∧
    ((¬ ∃ t ∈ c5NodeA.metadata.disciplinary_tags,
        t ∈ c5NodeB.metadata.disciplinary_tags) → (1/2 : ℚ) < 9/10 →
      ∃ bridge s',
        ASRGoTGraph.createIBN c5State "a" "b" (9/10) c5Ids =
          (some c5Ids.nodeId, s') ∧
        mapGet s'.vertices c5Ids.nodeId = some bridge ∧
        bridge.metadata.type = NodeType.ibn ∧
        bridge.metadata.confidence =
          ASRGoTGraph.averageConfidence c5NodeA.metadata.confidence
            c5NodeB.metadata.confidence ∧
        (∀ t, t ∈ bridge.metadata.disciplinary_tags ↔
          (t ∈ c5NodeA.metadata.disciplinary_tags ∨
            t ∈ c5NodeB.metadata.disciplinary_tags)) ∧
        s'.edges = c5State.edges ++
          [(c5Ids.edge1Id, ASRGoTGraph.builtEdge "a" c5Ids.nodeId
              ⟨c5Ids.edge1Id, EdgeType.other, some c5NodeA.metadata.confidence⟩
              c5Ids.edge1Id),
            (c5Ids.edge2Id, ASRGoTGraph.builtEdge c5Ids.nodeId "b"
              ⟨c5Ids.edge2Id, EdgeType.other, some c5NodeB.metadata.confidence⟩
              c5Ids.edge2Id)] ∧
        (ASRGoTGraph.builtEdge "a" c5Ids.nodeId
            ⟨c5Ids.edge1Id, EdgeType.other, some c5NodeA.metadata.confidence⟩
            c5Ids.edge1Id).metadata.edge_type = EdgeType.other ∧
        (ASRGoTGraph.builtEdge c5Ids.nodeId "b"
            ⟨c5Ids.edge2Id, EdgeType.other, some c5NodeB.metadata.confidence⟩
            c5Ids.edge2Id).metadata.edge_type = EdgeType.other)) :=
  ⟨⟨rfl, rfl, by decide, by decide, by decide, rfl,
      by decide, rfl, by decide, rfl, by decide⟩,
    C5_createIBN_spec c5State "a" "b" c5NodeA c5NodeB (9/10) c5Ids
      rfl rfl (by decide) (by decide) (by decide) rfl
      (by decide) rfl (by decide) rfl (by decide)⟩

/-! ### Claim C3 — merging -/

namespace ASRGoTGraph

/-- Every stored node has a non-zero impact score.  This is an invariant of
the store: `addNode` replaces a falsy (`0`/missing) impact by the default
`0.5`, and no operation ever writes a zero impact afterwards. -/
def ImpactWF (s : ASRGoTGraphState) : Prop :=
  ∀ p ∈ s.vertices, p.2.metadata.impact_score ≠ 0

/-- `addNode` establishes/preserves the non-zero-impact invariant. -/
theorem ImpactWF_addNode {s : ASRGoTGraphState} {m : NodeMetadataIn}
    {rid nid : String} {s' : ASRGoTGraphState} (h : ImpactWF s)
    (hok : addNode s m rid = Except.ok (nid, s')) : ImpactWF s' := by
  obtain ⟨hid, hst⟩ := addNode_ok_inv hok
  intro p hp
  rw [hst, addNodeState_vertices] at hp
  rcases mem_mapSet hp with hold | hnew
  · exact h p hold
  · rw [hnew]
    show jsOrNum m.impact_score (1/2) ≠ 0
    unfold jsOrNum
    cases m.impact_score with
    | none => norm_num
    | some v =>
      show (if v = 0 then (1:ℚ)/2 else v) ≠ 0
      by_cases hv : v = 0
      · rw [if_pos hv]; norm_num
      · rw [if_neg hv]; exact hv

/-- `mergeNodes` computed in closed form on the success path. -/
theorem mergeNodes_ok (s : ASRGoTGraphState) (a b : String)
    (na nb : GraphNode) (ov : ℚ) (mid rid : String)
    (ha : mapGet s.vertices a = some na) (hb : mapGet s.vertices b = some nb)
    (hov : ¬ ov < 8/10)
    (hm0 : ¬ (mergedMetadata na nb a b mid).node_id = "") :
    mergeNodes s a b ov mid rid =
      Except.ok (some (addNodeId s (mergedMetadata na nb a b mid) rid),
        removeNode (removeNode
          (transferEdges (transferEdges
            (addNodeState s (mergedMetadata na nb a b mid)
              (builtNode (mergedMetadata na nb a b mid)
                (addNodeId s (mergedMetadata na nb a b mid) rid)))
            a (addNodeId s (mergedMetadata na nb a b mid) rid))
          b (addNodeId s (mergedMetadata na nb a b mid) rid))
        a) b) := by
  unfold mergeNodes
  rw [if_neg hov, ha, hb]
  dsimp only
  rw [addNode_ok_of_ne hm0]

end ASRGoTGraph

/-- C3: for two distinct existing nodes in a well-formed store (duplicate-
free keys, non-zero impacts — both invariants of the public API) and fresh
non-empty merge uuid: below overlap `0.8` `mergeNodes` is a no-op returning
`null` with the store unchanged; at or above `0.8` it returns a merged node
replacing the two (node count drops by exactly 1), whose disciplinary-tag
set is the union of the two tag sets, whose impact is the maximum and whose
confidence is the dimension-wise average. -/
theorem C3_mergeNodes_spec (s : ASRGoTGraphState) (a b : String)
    (na nb : GraphNode) (ov : ℚ) (mid rid : String)
    (ha : mapGet s.vertices a = some na) (hb : mapGet s.vertices b = some nb)
    (hab : ¬ a = b) (hnd : (mapKeys s.vertices).Nodup)
    (hwf : ASRGoTGraph.ImpactWF s)
    (hm0 : ¬ mid = "") (hmf : mapHas s.vertices mid = false) :
    (ov < 8/10 →
      ASRGoTGraph.mergeNodes s a b ov mid rid = Except.ok (none, s)) ∧
    (8/10 ≤ ov →
      ∃ merged s',
        ASRGoTGraph.mergeNodes s a b ov mid rid = Except.ok (some mid, s') ∧
        mapGet s'.vertices mid = some merged ∧
        mapHas s'.vertices a = false ∧ mapHas s'.vertices b = false ∧
        s'.vertices.length + 1 = s.vertices.length ∧
        (∀ t, t ∈ merged.metadata.disciplinary_tags ↔
          (t ∈ na.metadata.disciplinary_tags ∨
            t ∈ nb.metadata.disciplinary_tags)) ∧
        merged.metadata.impact_score =
          max na.metadata.impact_score nb.metadata.impact_score ∧
        merged.metadata.confidence =
          ASRGoTGraph.averageConfidence na.metadata.confidence
            nb.metadata.confidence) := by
  constructor
  · intro hov
    unfold ASRGoTGraph.mergeNodes
    rw [if_pos hov]
  · intro hov
    have hov' : ¬ ov < 8/10 := not_lt.mpr hov
    have hmha : mapHas s.vertices a = true := by rw [mapHas, ha]; rfl
    have hmhb : mapHas s.vertices b = true := by rw [mapHas, hb]; rfl
    have hma : ¬ mid = a := by
      intro h
      rw [h, hmha] at hmf
      cases hmf
    have hmb : ¬ mid = b := by
      intro h
      rw [h, hmhb] at hmf
      cases hmf
    have hid : ASRGoTGraph.addNodeId s
        (ASRGoTGraph.mergedMetadata na nb a b mid) rid = mid :=
      ASRGoTGraph.addNodeId_of_fresh (by exact hmf)
    have hmerge := ASRGoTGraph.mergeNodes_ok s a b na nb ov mid rid ha hb hov'
      (by exact hm0)
    rw [hid] at hmerge
    refine ⟨ASRGoTGraph.builtNode (ASRGoTGraph.mergedMetadata na nb a b mid)
        mid, _, hmerge, ?_, ?_, ?_, ?_, ?_, ?_, ?_⟩
    · show mapGet (ASRGoTGraph.removeNode (ASRGoTGraph.removeNode _ a) b).vertices
        mid = _
      rw [ASRGoTGraph.removeNode_vertices, ASRGoTGraph.removeNode_vertices,
        ASRGoTGraph.transferEdges_vertices, ASRGoTGraph.transferEdges_vertices,
        ASRGoTGraph.addNodeState_vertices,
        mapGet_mapDelete_ne _ b mid hmb, mapGet_mapDelete_ne _ a mid hma]
      exact mapGet_mapSet_self _ _ _
    · rw [ASRGoTGraph.removeNode_vertices, ASRGoTGraph.removeNode_vertices,
        mapHas_mapDelete, if_neg hab, mapHas_mapDelete, if_pos rfl]
    · rw [ASRGoTGraph.removeNode_vertices, mapHas_mapDelete, if_pos rfl]
    · rw [ASRGoTGraph.removeNode_vertices, ASRGoTGraph.removeNode_vertices,
        ASRGoTGraph.transferEdges_vertices, ASRGoTGraph.transferEdges_vertices,
        ASRGoTGraph.addNodeState_vertices,
        show (ASRGoTGraph.builtNode
          (ASRGoTGraph.mergedMetadata na nb a b mid) mid).id = mid from rfl]
      have hndk : (mapKeys (mapSet s.vertices mid
          (ASRGoTGraph.builtNode (ASRGoTGraph.mergedMetadata na nb a b mid)
            mid))).Nodup := by
        rw [mapKeys_mapSet_of_not_has s.vertices mid _ hmf]
        rw [List.nodup_append]
        refine ⟨hnd, List.nodup_singleton mid, ?_⟩
        intro x hx hmem
        rw [List.mem_singleton] at hmem
        rw [hmem] at hx
        rw [← mapHas_iff_mem_keys] at hx
        rw [hx] at hmf
        cases hmf
      have h1 : (mapSet s.vertices mid
          (ASRGoTGraph.builtNode (ASRGoTGraph.mergedMetadata na nb a b mid)
            mid)).length = s.vertices.length + 1 :=
        length_mapSet_of_not_has s.vertices mid _ hmf
      have h2 := length_mapDelete_of_has hndk
        (mapHas_mapSet_of_has mid _ hmha)
      have hndk2 : (mapKeys (mapDelete (mapSet s.vertices mid
          (ASRGoTGraph.builtNode (ASRGoTGraph.mergedMetadata na nb a b mid)
            mid)) a)).Nodup := nodup_mapKeys_mapDelete _ a hndk
      have hhasb : mapHas (mapDelete (mapSet s.vertices mid
          (ASRGoTGraph.builtNode (ASRGoTGraph.mergedMetadata na nb a b mid)
            mid)) a) b = true := by
        rw [mapHas_mapDelete, if_neg (fun hh => hab hh.symm)]
        exact mapHas_mapSet_of_has mid _ hmhb
      have h3 := length_mapDelete_of_has hndk2 hhasb
      omega
    · intro t
      show t ∈ ((na.metadata.disciplinary_tags ++
        nb.metadata.disciplinary_tags).dedup) ↔ _
      rw [List.mem_dedup]
      exact List.mem_append
    · show jsOrNum (some (max na.metadata.impact_score
        nb.metadata.impact_score)) (1/2) = _
      have hia : na.metadata.impact_score ≠ 0 := hwf _ (mapGet_mem ha)
      have hib : nb.metadata.impact_score ≠ 0 := hwf _ (mapGet_mem hb)
      have hmax : max na.metadata.impact_score nb.metadata.impact_score ≠ 0 := by
        rcases max_choice na.metadata.impact_score nb.metadata.impact_score with
          hc | hc <;> rw [hc]
        · exact hia
        · exact hib
      show (if max na.metadata.impact_score nb.metadata.impact_score = 0
          then (1:ℚ)/2
          else max na.metadata.impact_score nb.metadata.impact_score) = _
      rw [if_neg hmax]
    · rfl

/-- Concrete nodes and store for the C3 witness. -/
def c3NodeA : GraphNode :=
  { id := "a"
    metadata :=
      { node_id := "a", label := "A", type := NodeType.hypothesis
        provenance := "test", confidence := ⟨4/5, 2/5, 3/5, 1/5⟩
        epistemic_status := "hypothetical", disciplinary_tags := ["immunology"]
        bias_flags := [], revision_history := ["Node created"]
        impact_score := 1, layer_id := none
        falsification_criteria := none, statistical_power := none } }

def c3NodeB : GraphNode :=
  { id := "b"
    metadata :=
      { node_id := "b", label := "B", type := NodeType.hypothesis
        provenance := "test", confidence := ⟨2/5, 4/5, 1/5, 3/5⟩
        epistemic_status := "hypothetical", disciplinary_tags := ["dermatology"]
        bias_flags := [], revision_history := ["Node created"]
        impact_score := 1, layer_id := none
        falsification_criteria := none, statistical_power := none } }

def c3State : ASRGoTGraphState :=
  { emptyGraphState with vertices := [("a", c3NodeA), ("b", c3NodeB)] }

/-- Witness for C3 at a concrete two-node store, overlap `0.9`. -/
theorem C3_mergeNodes_spec_witness :
    (mapGet c3State.vertices "a" = some c3NodeA ∧
      mapGet c3State.vertices "b" = some c3NodeB ∧
      ¬ "a" = "b" ∧ (mapKeys c3State.vertices).Nodup ∧
      ASRGoTGraph.ImpactWF c3State ∧
      ¬ "m" = "" ∧ mapHas c3State.vertices "m" = false) ∧
    (((9/10 : ℚ) < 8/10 →
      ASRGoTGraph.mergeNodes c3State "a" "b" (9/10) "m" "r" =
        Except.ok (none, c3State)) ∧
    ((8/10 : ℚ) ≤ 9/10 →
      ∃ merged s',
        ASRGoTGraph.mergeNodes c3State "a" "b" (9/10) "m" "r" =
          Except.ok (some "m", s') ∧
        mapGet s'.vertices "m" = some merged ∧
        mapHas s'.vertices "a" = false ∧ mapHas s'.vertices "b" = false ∧
        s'.vertices.length + 1 = c3State.vertices.length ∧
        (∀ t, t ∈ merged.metadata.disciplinary_tags ↔
          (t ∈ c3NodeA.metadata.disciplinary_tags ∨
            t ∈ c3NodeB.metadata.disciplinary_tags)) ∧
        merged.metadata.impact_score =
          max c3NodeA.metadata.impact_score c3NodeB.metadata.impact_score ∧
        merged.metadata.confidence =
          ASRGoTGraph.averageConfidence c3NodeA.metadata.confidence
            c3NodeB.metadata.confidence)) :=
  have hwf : ASRGoTGraph.ImpactWF c3State := by
    intro p hp
    rcases List.mem_cons.mp hp with h1 | h1
    · rw [h1]; norm_num [c3NodeA]
    · rcases List.mem_cons.mp h1 with h2 | h2
      · rw [h2]; norm_num [c3NodeB]
      · cases h2
  ⟨⟨rfl, rfl, by decide, by decide, hwf, by decide, rfl⟩,
    C3_mergeNodes_spec c3State "a" "b" c3NodeA c3NodeB (9/10) "m" "r"
      rfl rfl (by decide) (by decide) hwf (by decide) rfl⟩

/-! ### Claim C10 — edges across a merge -/

namespace ASRGoTGraph

/-- Both-endpoint rewriting (what the pair of `transferEdges` passes
achieves for edges that are not self-loops on the merged originals). -/
def rewriteEndpoints (a b mid : String) (e : GraphEdge) : GraphEdge :=
  { e with
    source := if e.source = a ∨ e.source = b then mid else e.source
    target := if e.target = a ∨ e.target = b then mid else e.target }

theorem transferEdge_compose (a b mid : String) (p : String × GraphEdge)
    (hmb : ¬ mid = b)
    (hns : ¬ (p.2.source = p.2.target ∧ (p.2.source = a ∨ p.2.source = b))) :
    transferEdge b mid (transferEdge a mid p) =
      (p.1, rewriteEndpoints a b mid p.2) := by
  unfold transferEdge rewriteEndpoints
  by_cases h1 : p.2.source = a
  · rw [if_pos h1]
    dsimp only
    rw [if_neg hmb]
    by_cases h2 : p.2.target = b
    · rw [if_pos h2, if_pos (Or.inl h1), if_pos (Or.inr h2)]
    · have h3 : ¬ p.2.target = a := by
        intro hta
        exact hns ⟨by rw [h1, hta], Or.inl h1⟩
      rw [if_neg h2, if_pos (Or.inl h1),
        if_neg (by push_neg; exact ⟨h3, h2⟩)]
  · rw [if_neg h1]
    by_cases h2 : p.2.target = a
    · rw [if_pos h2]
      dsimp only
      by_cases h3 : p.2.source = b
      · rw [if_pos h3, if_pos (Or.inr h3), if_pos (Or.inl h2)]
      · rw [if_neg h3, if_neg hmb,
          if_neg (by push_neg; exact ⟨h1, h3⟩), if_pos (Or.inl h2)]
    · rw [if_neg h2]
      by_cases h3 : p.2.source = b
      · have h4 : ¬ p.2.target = b := by
          intro htb
          exact hns ⟨by rw [h3, htb], Or.inr h3⟩
        rw [if_pos h3, if_pos (Or.inr h3),
          if_neg (by push_neg; exact ⟨h2, h4⟩)]
      · by_cases h4 : p.2.target = b
        · rw [if_neg h3, if_pos h4,
            if_neg (by push_neg; exact ⟨h1, h3⟩), if_pos (Or.inr h4)]
        · rw [if_neg h3, if_neg h4,
            if_neg (by push_neg; exact ⟨h1, h3⟩),
            if_neg (by push_neg; exact ⟨h2, h4⟩)]

theorem rewriteEndpoints_source_ne (a b mid : String) (hma : ¬ mid = a)
    (hmb : ¬ mid = b) (e : GraphEdge) :
    ¬ (rewriteEndpoints a b mid e).source = a ∧
    ¬ (rewriteEndpoints a b mid e).source = b ∧
    ¬ (rewriteEndpoints a b mid e).target = a ∧
    ¬ (rewriteEndpoints a b mid e).target = b := by
  unfold rewriteEndpoints
  dsimp only
  refine ⟨?_, ?_, ?_, ?_⟩ <;> split
  · exact hma
  · rename_i h; push_neg at h; exact h.1
  · exact hmb
  · rename_i h; push_neg at h; exact h.2
  · exact hma
  · rename_i h; push_neg at h; exact h.1
  · exact hmb
  · rename_i h; push_neg at h; exact h.2

end ASRGoTGraph

/-- C10 (amended): for a successful merge of two distinct existing nodes,
every edge whose endpoints were `a` or `b` is rewritten to the merged id —
in particular an edge directly connecting `a` and `b` survives as a
self-loop on the merged node — and, provided no original edge is a
self-loop on `a` or on `b`, `mergeNodes` deletes no edge and the edge count
is unchanged.  (A self-loop on an original is only half-rewritten by the
`else if` in `transferEdges` and is then deleted with its node, which is
what the counterexample exhibits.) -/
theorem C10_mergeNodes_edges_spec (s : ASRGoTGraphState) (a b : String)
    (na nb : GraphNode) (ov : ℚ) (mid rid : String)
    (ha : mapGet s.vertices a = some na) (hb : mapGet s.vertices b = some nb)
    (hab : ¬ a = b) (hm0 : ¬ mid = "") (hmf : mapHas s.vertices mid = false)
    (hov : 8/10 ≤ ov)
    (hnoself : ∀ p ∈ s.edges, ¬ (p.2.source = p.2.target ∧
      (p.2.source = a ∨ p.2.source = b))) :
    ∃ s', ASRGoTGraph.mergeNodes s a b ov mid rid = Except.ok (some mid, s') ∧
      s'.edges = s.edges.map
        (fun p => (p.1, ASRGoTGraph.rewriteEndpoints a b mid p.2)) ∧
      s'.edges.length = s.edges.length ∧
      (∀ p ∈ s.edges, ((p.2.source = a ∧ p.2.target = b) ∨
          (p.2.source = b ∧ p.2.target = a)) →
        (p.1, { p.2 with source := mid, target := mid }) ∈ s'.edges) := by
  have hov' : ¬ ov < 8/10 := not_lt.mpr hov
  have hmha : mapHas s.vertices a = true := by rw [mapHas, ha]; rfl
  have hmhb : mapHas s.vertices b = true := by rw [mapHas, hb]; rfl
  have hma : ¬ mid = a := by
    intro h
    rw [h, hmha] at hmf
    cases hmf
  have hmb : ¬ mid = b := by
    intro h
    rw [h, hmhb] at hmf
    cases hmf
  have hid : ASRGoTGraph.addNodeId s
      (ASRGoTGraph.mergedMetadata na nb a b mid) rid = mid :=
    ASRGoTGraph.addNodeId_of_fresh (by exact hmf)
  have hmerge := ASRGoTGraph.mergeNodes_ok s a b na nb ov mid rid ha hb hov'
    (by exact hm0)
  rw [hid] at hmerge
  have hedges : (ASRGoTGraph.removeNode (ASRGoTGraph.removeNode
      (ASRGoTGraph.transferEdges (ASRGoTGraph.transferEdges
        (ASRGoTGraph.addNodeState s (ASRGoTGraph.mergedMetadata na nb a b mid)
          (ASRGoTGraph.builtNode (ASRGoTGraph.mergedMetadata na nb a b mid)
            mid)) a mid) b mid) a) b).edges =
      s.edges.map (fun p => (p.1, ASRGoTGraph.rewriteEndpoints a b mid p.2)) := by
    rw [ASRGoTGraph.removeNode_edges, ASRGoTGraph.removeNode_edges]
    have ht : (ASRGoTGraph.transferEdges (ASRGoTGraph.transferEdges
        (ASRGoTGraph.addNodeState s (ASRGoTGraph.mergedMetadata na nb a b mid)
          (ASRGoTGraph.builtNode (ASRGoTGraph.mergedMetadata na nb a b mid)
            mid)) a mid) b mid).edges =
        s.edges.map (fun p => (p.1, ASRGoTGraph.rewriteEndpoints a b mid p.2)) := by
      show ((ASRGoTGraph.addNodeState s
        (ASRGoTGraph.mergedMetadata na nb a b mid)
        (ASRGoTGraph.builtNode (ASRGoTGraph.mergedMetadata na nb a b mid)
          mid)).edges.map (ASRGoTGraph.transferEdge a mid)).map
          (ASRGoTGraph.transferEdge b mid) = _
      rw [ASRGoTGraph.addNodeState_edges, List.map_map]
      apply List.map_congr_left
      intro p hp
      exact ASRGoTGraph.transferEdge_compose a b mid p hmb (hnoself p hp)
    rw [ht]
    rw [List.filter_eq_self.mpr ?_, List.filter_eq_self.mpr ?_]
    · intro q hq
      obtain ⟨p, hp, hpq⟩ := List.mem_map.mp hq
      obtain ⟨hsa, hsb, hta, htb⟩ :=
        ASRGoTGraph.rewriteEndpoints_source_ne a b mid hma hmb p.2
      rw [← hpq]
      apply decide_eq_true
      push_neg
      exact ⟨hsa, hta⟩
    · intro q hq
      rw [List.mem_filter] at hq
      obtain ⟨p, hp, hpq⟩ := List.mem_map.mp hq.1
      obtain ⟨hsa, hsb, hta, htb⟩ :=
        ASRGoTGraph.rewriteEndpoints_source_ne a b mid hma hmb p.2
      rw [← hpq]
      apply decide_eq_true
      push_neg
      exact ⟨hsb, htb⟩
  refine ⟨_, hmerge, hedges, ?_, ?_⟩
  · rw [hedges, List.length_map]
  · intro p hp hconn
    rw [hedges]
    apply List.mem_map.mpr
    refine ⟨p, hp, ?_⟩
    have hrw : ASRGoTGraph.rewriteEndpoints a b mid p.2 =
        { p.2 with source := mid, target := mid } := by
      unfold ASRGoTGraph.rewriteEndpoints
      rcases hconn with ⟨hs, ht⟩ | ⟨hs, ht⟩
      · rw [if_pos (Or.inl hs), if_pos (Or.inr ht)]
      · rw [if_pos (Or.inr hs), if_pos (Or.inl ht)]
    rw [hrw]

/-- Inputs used to build the C10 counterexample store through the API. -/
def c10MetaA : NodeMetadataIn :=
  { node_id := "a", label := "A", type := NodeType.hypothesis
    provenance := "t", confidence := none, epistemic_status := "h"
    disciplinary_tags := some ["x"], bias_flags := some []
    revision_history := some ["init"], impact_score := some 1
    layer_id := none, falsification_criteria := none, statistical_power := none }

def c10MetaB : NodeMetadataIn :=
  { node_id := "b", label := "B", type := NodeType.hypothesis
    provenance := "t", confidence := none, epistemic_status := "h"
    disciplinary_tags := some ["y"], bias_flags := some []
    revision_history := some ["init"], impact_score := some 1
    layer_id := none, falsification_criteria := none, statistical_power := none }

def c10EdgeMeta : EdgeMetadataIn :=
  { edge_id := "e", edge_type := EdgeType.supportive, confidence := none }

def c10S1 : ASRGoTGraphState :=
  match ASRGoTGraph.addNode emptyGraphState c10MetaA "r1" with
  | Except.ok (_, s) => s
  | Except.error _ => emptyGraphState

def c10S2 : ASRGoTGraphState :=
  match ASRGoTGraph.addNode c10S1 c10MetaB "r2" with
  | Except.ok (_, s) => s
  | Except.error _ => c10S1

/-- Store with nodes `a`, `b` and one self-loop edge `a → a`, built through
`addNode`/`addEdge`. -/
def c10S3 : ASRGoTGraphState :=
  match ASRGoTGraph.addEdge c10S2 "a" "a" c10EdgeMeta "r3" with
  | Except.ok (_, s) => s
  | Except.error _ => c10S2

/-- C10 (counterexample): in a store holding a self-loop on node `a`,
merging `a` and `b` (overlap `0.9`) deletes that edge — the edge count
drops from 1 to 0, refuting "mergeNodes never deletes any edge, so the
edge count is unchanged by a merge".  The `else if` in `transferEdges`
rewrites only the self-loop's source to the merged id; its target still
names `a`, so `removeNode(a)` deletes it. -/
theorem C10_counterexample_self_loop_deleted :
    c10S3.edges.length = 1 ∧
    ∃ s', ASRGoTGraph.mergeNodes c10S3 "a" "b" (9/10) "m" "r" =
      Except.ok (some "m", s') ∧ s'.edges = [] := by
  have hmerge := ASRGoTGraph.mergeNodes_ok c10S3 "a" "b"
    (ASRGoTGraph.builtNode c10MetaA "a") (ASRGoTGraph.builtNode c10MetaB "b")
    (9/10) "m" "r" rfl rfl (by norm_num) (by decide)
  rw [show ASRGoTGraph.addNodeId c10S3
    (ASRGoTGraph.mergedMetadata (ASRGoTGraph.builtNode c10MetaA "a")
      (ASRGoTGraph.builtNode c10MetaB "b") "a" "b" "m") "r" = "m" from rfl]
    at hmerge
  exact ⟨rfl, _, hmerge, rfl⟩

/-- A store with nodes `a`, `b` and one ordinary edge `a → b`, for the
witness of C10's amended theorem. -/
def c10wEdge : GraphEdge :=
  { id := "e", source := "a", target := "b"
    metadata :=
      { edge_id := "e", edge_type := EdgeType.supportive
        confidence := ⟨1/2, 1/2, 1/2, 1/2⟩ } }

def c10wState : ASRGoTGraphState :=
  { emptyGraphState with
    vertices := [("a", c3NodeA), ("b", c3NodeB)]
    edges := [("e", c10wEdge)] }

/-- Witness for C10's amended theorem at a concrete store with one edge
`a → b`. -/
theorem C10_mergeNodes_edges_spec_witness :
    (mapGet c10wState.vertices "a" = some c3NodeA ∧
      mapGet c10wState.vertices "b" = some c3NodeB ∧
      ¬ "a" = "b" ∧ ¬ "m" = "" ∧ mapHas c10wState.vertices "m" = false ∧
      (8/10 : ℚ) ≤ 9/10 ∧
      (∀ p ∈ c10wState.edges, ¬ (p.2.source = p.2.target ∧
        (p.2.source = "a" ∨ p.2.source = "b")))) ∧
    (∃ s', ASRGoTGraph.mergeNodes c10wState "a" "b" (9/10) "m" "r" =
        Except.ok (some "m", s') ∧
      s'.edges = c10wState.edges.map
        (fun p => (p.1, ASRGoTGraph.rewriteEndpoints "a" "b" "m" p.2)) ∧
      s'.edges.length = c10wState.edges.length ∧
      (∀ p ∈ c10wState.edges, ((p.2.source = "a" ∧ p.2.target = "b") ∨
          (p.2.source = "b" ∧ p.2.target = "a")) →
        (p.1, { p.2 with source := "m", target := "m" }) ∈ s'.edges)) :=
  ⟨⟨rfl, rfl, by decide, by decide, rfl, by norm_num, by decide⟩,
    C10_mergeNodes_edges_spec c10wState "a" "b" c3NodeA c3NodeB (9/10) "m" "r"
      rfl rfl (by decide) (by decide) rfl (by norm_num) (by decide)⟩

/-! ### Pipeline skeleton lemmas -/

namespace ASRGoTPipeline

/-- The retry loop never touches the context outside its side channels, and
never changes the result's stage number. -/
theorem attemptLoop_frame (B : Behavior) (stage maxRetries : Nat) :
    ∀ (fuel attempt : Nat) (g : ASRGoTGraphState) (ctx : ASRGoTContext)
      (r : StageResult),
      (attemptLoop B stage maxRetries fuel attempt g ctx r).2.1.stage_results =
        ctx.stage_results ∧
      (attemptLoop B stage maxRetries fuel attempt g ctx r).2.1.current_stage =
        ctx.current_stage ∧
      (attemptLoop B stage maxRetries fuel attempt g ctx r).2.1.fail_safe_active =
        ctx.fail_safe_active ∧
      (attemptLoop B stage maxRetries fuel attempt g ctx r).2.1.task_query =
        ctx.task_query ∧
      (attemptLoop B stage maxRetries fuel attempt g ctx r).2.1.computational_budget =
        ctx.computational_budget ∧
      (attemptLoop B stage maxRetries fuel attempt g ctx r).2.2.stage = r.stage := by
  intro fuel
  induction fuel with
  | zero =>
    intro attempt g ctx r
    exact ⟨rfl, rfl, rfl, rfl, rfl, rfl⟩
  | succ fuel ih =>
    intro attempt g ctx r
    have hclear : (if attempt > 0 then
        { r with nodes_created := [], edges_created := [] } else r).stage =
        r.stage := by split <;> rfl
    unfold attemptLoop
    dsimp only
    cases hB : B.stageLogic stage attempt g ctx (if attempt > 0 then
        { r with nodes_created := [], edges_created := [] } else r) with
    | ok o => exact ⟨rfl, rfl, rfl, rfl, rfl, hclear⟩
    | error eo =>
      obtain ⟨msg, o⟩ := eo
      dsimp only
      by_cases hret : attempt + 1 ≥ maxRetries
      · rw [if_pos hret]
        cases hF : B.failSafeOutput stage o.graph { ctx with side := o.side }
            { applyDelta (if attempt > 0 then
                { r with nodes_created := [], edges_created := [] } else r)
                o.delta with
              success := false
              errors := (applyDelta (if attempt > 0 then
                { r with nodes_created := [], edges_created := [] } else r)
                o.delta).errors ++
                ["Stage " ++ toString stage ++ " attempt " ++
                  toString (attempt + 1) ++ " error: " ++ msg] } with
        | ok o2 => exact ⟨rfl, rfl, rfl, rfl, rfl, hclear⟩
        | error e2 =>
          obtain ⟨m2, o2⟩ := e2
          exact ⟨rfl, rfl, rfl, rfl, rfl, hclear⟩
      · rw [if_neg hret]
        obtain ⟨h1, h2, h3, h4, h5, h6⟩ := ih (attempt + 1) o.graph
          { ctx with side := o.side }
          { applyDelta (if attempt > 0 then
              { r with nodes_created := [], edges_created := [] } else r)
              o.delta with
            errors := (applyDelta (if attempt > 0 then
              { r with nodes_created := [], edges_created := [] } else r)
              o.delta).errors ++
              ["Stage " ++ toString stage ++ " attempt " ++
                toString (attempt + 1) ++ " error: " ++ msg] }
        exact ⟨h1, h2, h3, h4, h5, by rw [h6]; exact hclear⟩

theorem executeStage_frame (B : Behavior) (st : PipelineState) (stage : Nat)
    (ctx : ASRGoTContext) :
    (executeStage B st stage ctx).2.1.stage_results = ctx.stage_results ∧
    (executeStage B st stage ctx).2.1.current_stage = ctx.current_stage ∧
    (executeStage B st stage ctx).2.1.fail_safe_active = ctx.fail_safe_active ∧
    (executeStage B st stage ctx).2.1.task_query = ctx.task_query ∧
    (executeStage B st stage ctx).2.1.computational_budget =
      ctx.computational_budget ∧
    (executeStage B st stage ctx).2.2.stage = stage := by
  unfold executeStage
  dsimp only
  exact attemptLoop_frame B stage _ _ 0 st.graph ctx (initResult stage)

/-- The stage loop always returns `ok`, appends exactly one result per
stage (in stage order), and finishes on the last stage number. -/
theorem runStages_spec (B : Behavior) :
    ∀ (stages : List Nat) (st : PipelineState) (ctx : ASRGoTContext),
      ∃ st' ctx',
        runStages B stages st ctx = Except.ok (st', ctx') ∧
        ctx'.stage_results.map (fun r => r.stage) =
          ctx.stage_results.map (fun r => r.stage) ++ stages ∧
        ctx'.current_stage = stages.getLastD ctx.current_stage := by
  intro stages
  induction stages with
  | nil =>
    intro st ctx
    exact ⟨st, ctx, rfl, by simp, rfl⟩
  | cons stage rest ih =>
    intro st ctx
    simp only [runStages]
    obtain ⟨f1, f2, f3, f4, f5, f6⟩ :=
      executeStage_frame B st stage { ctx with current_stage := stage }
    rcases hout : executeStage B st stage { ctx with current_stage := stage }
      with ⟨st1, ctx1, res⟩
    rw [hout] at f1 f2 f3 f4 f5 f6
    dsimp only at f1 f2 f3 f4 f5 f6
    dsimp only
    by_cases hretry : res.success = false ∧ st1.failSafeActive = false
    · rw [if_pos hretry]
      obtain ⟨g1, g2, g3, g4, g5, g6⟩ := executeStage_frame B
        { st1 with failSafeActive := true } stage
        { ctx1 with
          stage_results := ctx1.stage_results ++ [res]
          fail_safe_active := true }
      rcases hout2 : executeStage B { st1 with failSafeActive := true } stage
          { ctx1 with
            stage_results := ctx1.stage_results ++ [res]
            fail_safe_active := true }
        with ⟨st2, ctx2, res2⟩
      rw [hout2] at g1 g2 g3 g4 g5 g6
      dsimp only at g1 g2 g3 g4 g5 g6
      try dsimp only
      split
      all_goals {
        obtain ⟨st', ctx', hrun, hmap, hcur⟩ := ih _ _
        refine ⟨st', ctx', hrun, ?_, ?_⟩
        · rw [hmap]
          dsimp only
          rw [g1, List.dropLast_concat, List.map_append, f1]
          simp [g6]
        · rw [hcur]
          dsimp only
          rw [List.getLastD_cons, g2, f2] }
    · rw [if_neg hretry]
      try dsimp only
      split
      all_goals {
        obtain ⟨st', ctx', hrun, hmap, hcur⟩ := ih _ _
        refine ⟨st', ctx', hrun, ?_, ?_⟩
        · rw [hmap]
          dsimp only
          rw [List.map_append, f1]
          simp [f6]
        · rw [hcur]
          dsimp only
          rw [List.getLastD_cons, f2] }

end ASRGoTPipeline

/-! ### Claims C1 and C7 — pipeline totality and shape -/

/-- C1: `executeComplete` never rejects — for every stage-body behavior
(including ones that throw on every attempt, in the fallback generator
included) it resolves to a context; and the worst-case emergency path
(`handlePipelineFailure` reached with no stage results, i.e. on the initial
context) yields a context holding exactly the "Pipeline Failure"
`StageResult`, an emergency narrative and quality score `0.1`. -/
theorem C1_executeComplete_never_rejects (B : ASRGoTPipeline.Behavior)
    (query : ASRGoTPipeline.ResearchQuery)
    (profile : ASRGoTPipeline.UserProfile) (errMsg : String) :
    (∃ ctx, ASRGoTPipeline.executeComplete B query profile = Except.ok ctx) ∧
    (ASRGoTPipeline.handlePipelineFailure
        (ASRGoTPipeline.initialContext query profile) errMsg).stage_results.map
        (fun r => r.stage_name) = ["Pipeline Failure"] ∧
    (ASRGoTPipeline.handlePipelineFailure
        (ASRGoTPipeline.initialContext query profile) errMsg).side.final_narrative =
      some ("Analysis of query \"" ++ query.query ++
        "\" encountered critical errors. Partial results may be available. Error: "
        ++ errMsg) ∧
    (ASRGoTPipeline.handlePipelineFailure
        (ASRGoTPipeline.initialContext query profile) errMsg).side.quality_score =
      some (1/10) := by
  refine ⟨?_, rfl, rfl, rfl⟩
  obtain ⟨st', ctx', hrun, _, _⟩ := ASRGoTPipeline.runStages_spec B
    [1, 2, 3, 4, 5, 6, 7, 8]
    { graph := emptyGraphState, failSafeActive := false }
    (ASRGoTPipeline.initialContext query profile)
  have hunf : ASRGoTPipeline.executeComplete B query profile =
      ASRGoTPipeline.finishPipeline
        (ASRGoTPipeline.runStages B [1, 2, 3, 4, 5, 6, 7, 8]
          { graph := emptyGraphState, failSafeActive := false }
          (ASRGoTPipeline.initialContext query profile)) := rfl
  refine ⟨ctx', ?_⟩
  rw [hunf, hrun]
  rfl

/-- C7: for the empty query string and any profile and stage-body behavior,
`executeComplete` resolves to a context with exactly 8 `StageResult`
entries, one per stage in order `1..8`, and `current_stage = 8`. -/
theorem C7_executeComplete_eight_stages (B : ASRGoTPipeline.Behavior)
    (profile : ASRGoTPipeline.UserProfile) (dom : Option (List String)) :
    ∃ ctx,
      ASRGoTPipeline.executeComplete B { query := "", domain := dom } profile =
        Except.ok ctx ∧
      ctx.stage_results.map (fun r => r.stage) = [1, 2, 3, 4, 5, 6, 7, 8] ∧
      ctx.stage_results.length = 8 ∧
      ctx.current_stage = 8 := by
  obtain ⟨st', ctx', hrun, hmap, hcur⟩ := ASRGoTPipeline.runStages_spec B
    [1, 2, 3, 4, 5, 6, 7, 8]
    { graph := emptyGraphState, failSafeActive := false }
    (ASRGoTPipeline.initialContext { query := "", domain := dom } profile)
  have hmap' : ctx'.stage_results.map (fun r => r.stage) =
      [1, 2, 3, 4, 5, 6, 7, 8] := by
    rw [hmap]
    rfl
  have hunf : ASRGoTPipeline.executeComplete B
      { query := "", domain := dom } profile =
      ASRGoTPipeline.finishPipeline
        (ASRGoTPipeline.runStages B [1, 2, 3, 4, 5, 6, 7, 8]
          { graph := emptyGraphState, failSafeActive := false }
          (ASRGoTPipeline.initialContext { query := "", domain := dom }
            profile)) := rfl
  refine ⟨ctx', ?_, hmap', ?_, ?_⟩
  · rw [hunf, hrun]
    rfl
  · have := congrArg List.length hmap'
    rw [List.length_map] at this
    exact this
  · rw [hcur]
    rfl

/-! ### Claim C8 — `getState` is a shallow copy -/

namespace SnapshotModel

/-- No operation ever replaces the `Map` objects: the state's references
are untouched by every public mutation. -/
theorem applyMutation_state (g : ASRGoTGraphObj) (mu : GraphMutation) :
    (applyMutation g mu).state = g.state := rfl

theorem foldl_applyMutation_state (mus : List GraphMutation) :
    ∀ g : ASRGoTGraphObj, (mus.foldl applyMutation g).state = g.state := by
  induction mus with
  | nil => intro g; rfl
  | cons mu rest ih =>
    intro g
    rw [List.foldl_cons, ih (applyMutation g mu), applyMutation_state]

end SnapshotModel

/-- C8 (amended): `getState` returns a shallow copy — a fresh record whose
`Map` fields are the *same* objects as the live store's.  Consequently a
previously returned snapshot is never frozen: after any sequence of
mutations, the vertices, edges, hyperedges and layers seen through the old
snapshot coincide with those of the live store (the counterexample shows
they do change with it). -/
theorem C8_getState_aliases_live_store (g : SnapshotModel.ASRGoTGraphObj)
    (mus : List SnapshotModel.GraphMutation) :
    SnapshotModel.viewVertices (mus.foldl SnapshotModel.applyMutation g)
        (SnapshotModel.getState g) =
      SnapshotModel.viewVertices (mus.foldl SnapshotModel.applyMutation g)
        (SnapshotModel.getState (mus.foldl SnapshotModel.applyMutation g)) ∧
    SnapshotModel.viewEdges (mus.foldl SnapshotModel.applyMutation g)
        (SnapshotModel.getState g) =
      SnapshotModel.viewEdges (mus.foldl SnapshotModel.applyMutation g)
        (SnapshotModel.getState (mus.foldl SnapshotModel.applyMutation g)) ∧
    SnapshotModel.viewHyperedges (mus.foldl SnapshotModel.applyMutation g)
        (SnapshotModel.getState g) =
      SnapshotModel.viewHyperedges (mus.foldl SnapshotModel.applyMutation g)
        (SnapshotModel.getState (mus.foldl SnapshotModel.applyMutation g)) ∧
    SnapshotModel.viewLayers (mus.foldl SnapshotModel.applyMutation g)
        (SnapshotModel.getState g) =
      SnapshotModel.viewLayers (mus.foldl SnapshotModel.applyMutation g)
        (SnapshotModel.getState (mus.foldl SnapshotModel.applyMutation g)) := by
  have hgs : SnapshotModel.getState (mus.foldl SnapshotModel.applyMutation g) =
      SnapshotModel.getState g := by
    show (mus.foldl SnapshotModel.applyMutation g).state = g.state
    exact SnapshotModel.foldl_applyMutation_state mus g
  rw [hgs]
  exact ⟨rfl, rfl, rfl, rfl⟩

/-- Metadata used by the C8 counterexample. -/
def c8Meta : NodeMetadataIn :=
  { node_id := "n1", label := "N", type := NodeType.root
    provenance := "t", confidence := none, epistemic_status := "e"
    disciplinary_tags := some ["x"], bias_flags := some []
    revision_history := some ["init"], impact_score := some 1
    layer_id := none, falsification_criteria := none
    statistical_power := none }

/-- C8 (counterexample): the claim says mutations performed after a
`getState()` call leave the vertices visible through the old snapshot
unchanged.  Concretely: take a fresh graph, snapshot it, then `addNode`;
the old snapshot now shows 1 vertex where it showed 0 — `{ ...state }` is
a shallow copy, not a defensive copy. -/
theorem C8_counterexample_snapshot_not_defensive :
    SnapshotModel.viewVertices
        (SnapshotModel.applyMutation SnapshotModel.newGraph
          (SnapshotModel.GraphMutation.addNodeM c8Meta "r"))
        (SnapshotModel.getState SnapshotModel.newGraph) ≠
      SnapshotModel.viewVertices SnapshotModel.newGraph
        (SnapshotModel.getState SnapshotModel.newGraph) := by
  intro h
  have h2 := congrArg (Option.map List.length) h
  rw [show (SnapshotModel.viewVertices
      (SnapshotModel.applyMutation SnapshotModel.newGraph
        (SnapshotModel.GraphMutation.addNodeM c8Meta "r"))
      (SnapshotModel.getState SnapshotModel.newGraph)).map List.length =
      some 1 from rfl] at h2
  rw [show (SnapshotModel.viewVertices SnapshotModel.newGraph
      (SnapshotModel.getState SnapshotModel.newGraph)).map List.length =
      some 0 from rfl] at h2
  exact absurd h2 (by decide)
